import Mathlib

/-!
# Synapse group bookkeeping of GeNN (`lib/src/synapseGroup.cc`)

A shallow embedding of `SynapseGroup`: the zero-copy flags, the sparse-only
setters, the derived parameters, the padded kernel sizes, the collection of
extra global parameters and the queries built on them, followed by the
properties proved about them.

Conventions of the embedding.

* `unsigned int` values are natural numbers; a value stored into an
  `unsigned int` is reduced modulo `2 ^ 32`.
* The kernel sizes are computed by the source in `double`.  The operands are
  `unsigned int` values: the quotient of two of them is rounded by less than
  its distance to the next integer, so its ceiling is the exact one, and the
  product with the block size and the sum with the accumulator stay below
  `2 ^ 53` and are exact.  The embedding therefore carries these values as
  rationals.  The product of two neuron counts in `getPaddedDynKernelSize` is
  exact below `2 ^ 53`; the properties proved of it concern raw sizes below
  `2 ^ 32`.
* The source never passes a block size of zero through these formulas
  meaningfully (the quotient is then infinite or not a number); the
  properties are stated for block sizes above zero.
* A `std::set<std::string>` is a finite set of strings.  A
  `std::map<std::string, std::string>` is an association list with at most
  one entry per key, in the order of insertion; the order of the map's keys
  is not observed by any function embedded here.
* `std::string::find(token) != npos` holds when the token occurs in the
  string as a contiguous run of characters.
* A `void` member function that may call `gennError` becomes a function that
  returns the outcome of the call together with the group after the call.
-/

namespace GeNN

/-! ## Data model -/

/-- Scalar values (`double` in the source) carried by parameter vectors. -/
abbrev Scalar := ℚ

/-- A vector of (name, type) pairs, `NewModels::Base::StringPairVec`. -/
abbrev StringPairVec := List (String × String)

/-- A derived parameter: its name and the function of the parameter vector
and the time step that computes it, `NewModels::Base::DerivedParamVec`. -/
abbrev DerivedParamVec := List (String × (List Scalar → Scalar → Scalar))

/-- Modelled from the spec: `gennError` is declared in `utils.h`, which is not
among the sources.  It reports its message and ends the build pass; the
specification names the two kinds of failure raised through it in
`synapseGroup.cc`.  Each kind carries the message passed to `gennError`. -/
inductive GennError where
  | UnknownVariable (message : String)
  | InvalidConfiguration (message : String)
  deriving DecidableEq, Repr

/-- Modelled from the spec: the enumeration `SpanType` is declared in
`synapseGroup.h`, which is not among the sources; its two values are the ones
`synapseGroup.cc` compares against. -/
inductive SpanType where
  | POSTSYNAPTIC
  | PRESYNAPTIC
  deriving DecidableEq, Repr

/-- Modelled from the spec: the header declaring `SynapseMatrixConnectivity`
is not among the sources.  The connectivity kind is a bit mask tested with a
bitwise AND; `SPARSE` is one bit of it. -/
def SynapseMatrixConnectivity.SPARSE : Nat := 1 <<< 2

/-- Modelled from the spec: the `DENSE` bit of `SynapseMatrixConnectivity`,
used to build dense example groups. -/
def SynapseMatrixConnectivity.DENSE : Nat := 1 <<< 0

/-- The part of a neuron model read by a synapse group. -/
structure NeuronModel where
  extraGlobalParams : StringPairVec

/-- The part of a neuron group read by a synapse group. -/
structure NeuronGroup where
  name : String
  numNeurons : Nat
  delayRequired : Bool
  neuronModel : NeuronModel

/-- The part of a weight-update model read by a synapse group. -/
structure WeightUpdateModel where
  vars : StringPairVec
  derivedParams : DerivedParamVec
  extraGlobalParams : StringPairVec
  simCode : String
  eventCode : String
  eventThresholdConditionCode : String
  learnPostCode : String
  synapseDynamicsCode : String

/-- The part of a postsynaptic model read by a synapse group. -/
structure PostsynapticModel where
  vars : StringPairVec
  derivedParams : DerivedParamVec

/-- The members of `SynapseGroup` read or written by the member functions of
`synapseGroup.cc`, with the types those functions use them at.  The two
zero-copy members are `std::set<std::string>`, carried as finite sets. -/
structure SynapseGroup where
  matrixType : Nat
  spanType : SpanType
  maxConnections : Nat
  srcNeuronGroup : NeuronGroup
  trgNeuronGroup : NeuronGroup
  wuModel : WeightUpdateModel
  psModel : PostsynapticModel
  wuParams : List Scalar
  psParams : List Scalar
  wuDerivedParams : List Scalar
  psDerivedParams : List Scalar
  wuVarZeroCopyEnabled : Finset String
  psVarZeroCopyEnabled : Finset String
  paddedKernelCumSum : Nat × Nat

/-- The map from full parameter name to type, a
`std::map<std::string, std::string>`, as an association list. -/
abbrev KernelParameters := List (String × String)

/-- The test `code.find(token) != string::npos`: the token occurs in the code
as a contiguous run of characters. -/
def codeFind (code token : String) : Bool := decide (token.data <:+: code.data)

/-! ## Machine arithmetic -/

/-- Number of values of an `unsigned int`. -/
def UINT_RANGE : Nat := 2 ^ 32

/-- Conversion of a `double` holding a non-negative value to `unsigned int`:
the fraction is dropped and the integer is reduced modulo `2 ^ 32`.  The
language defines the conversion only for values below `2 ^ 32`; above, the
model takes the wrap-around of unsigned arithmetic. -/
def doubleToUInt (x : ℚ) : Nat := Int.toNat ⌊x⌋ % UINT_RANGE

/-- The expression `ceil((double) raw / (double) blockSize) * (double) blockSize`
of the source. -/
def paddedSize (raw blockSize : ℚ) : ℚ := (⌈raw / blockSize⌉ : ℚ) * blockSize

namespace SynapseGroup

/-- The test `getMatrixType() & SynapseMatrixConnectivity::SPARSE`. -/
def isSparse (sg : SynapseGroup) : Bool :=
  (sg.matrixType &&& SynapseMatrixConnectivity.SPARSE) != 0

/-- Accessor `getMaxConnections`. -/
def getMaxConnections (sg : SynapseGroup) : Nat := sg.maxConnections

/-- Accessor `getSpanType`. -/
def getSpanType (sg : SynapseGroup) : SpanType := sg.spanType

/-! ## Zero-copy flags -/

/-- The names iterated by `VarNameIterCtx` over the weight-update model's
variables. -/
def wuVarNames (sg : SynapseGroup) : List String := sg.wuModel.vars.map Prod.fst

/-- The names iterated by `VarNameIterCtx` over the postsynaptic model's
variables. -/
def psVarNames (sg : SynapseGroup) : List String := sg.psModel.vars.map Prod.fst

/-- `SynapseGroup::setWUVarZeroCopyEnabled`. -/
def setWUVarZeroCopyEnabled (sg : SynapseGroup) (var : String) (enabled : Bool) :
    Except GennError Unit × SynapseGroup :=
  if !(sg.wuVarNames.contains var) then
    (.error (.UnknownVariable ("Cannot find variable " ++ var)), sg)
  else if enabled then
    (.ok (), { sg with wuVarZeroCopyEnabled := insert var sg.wuVarZeroCopyEnabled })
  else
    (.ok (), { sg with wuVarZeroCopyEnabled := sg.wuVarZeroCopyEnabled.erase var })

/-- `SynapseGroup::setPSVarZeroCopyEnabled`. -/
def setPSVarZeroCopyEnabled (sg : SynapseGroup) (var : String) (enabled : Bool) :
    Except GennError Unit × SynapseGroup :=
  if !(sg.psVarNames.contains var) then
    (.error (.UnknownVariable ("Cannot find variable " ++ var)), sg)
  else if enabled then
    (.ok (), { sg with psVarZeroCopyEnabled := insert var sg.psVarZeroCopyEnabled })
  else
    (.ok (), { sg with psVarZeroCopyEnabled := sg.psVarZeroCopyEnabled.erase var })

/-- `SynapseGroup::isZeroCopyEnabled`. -/
def isZeroCopyEnabled (sg : SynapseGroup) : Bool :=
  if !decide (sg.wuVarZeroCopyEnabled = ∅) || !decide (sg.psVarZeroCopyEnabled = ∅) then
    true
  else
    false

/-- `SynapseGroup::isWUVarZeroCopyEnabled`. -/
def isWUVarZeroCopyEnabled (sg : SynapseGroup) (var : String) : Bool :=
  decide (var ∈ sg.wuVarZeroCopyEnabled)

/-- `SynapseGroup::isPSVarZeroCopyEnabled`. -/
def isPSVarZeroCopyEnabled (sg : SynapseGroup) (var : String) : Bool :=
  decide (var ∈ sg.psVarZeroCopyEnabled)

/-! ## Sparse-only setters -/

/-- `SynapseGroup::setMaxConnections`. -/
def setMaxConnections (sg : SynapseGroup) (maxConnections : Nat) :
    Except GennError Unit × SynapseGroup :=
  if sg.isSparse then
    (.ok (), { sg with maxConnections := maxConnections })
  else
    (.error (.InvalidConfiguration
      "setMaxConn: Synapse group is densely connected. Maxconn variable is not needed in this case."),
     sg)

/-- `SynapseGroup::setSpanType`. -/
def setSpanType (sg : SynapseGroup) (spanType : SpanType) :
    Except GennError Unit × SynapseGroup :=
  if sg.isSparse then
    (.ok (), { sg with spanType := spanType })
  else
    (.error (.InvalidConfiguration
      "setSpanType: This function is not enabled for dense connectivity type."),
     sg)

/-- `SynapseGroup::isPSAtomicAddRequired`. -/
def isPSAtomicAddRequired (sg : SynapseGroup) (blockSize : Nat) : Bool :=
  if sg.isSparse then
    if sg.getSpanType = SpanType.POSTSYNAPTIC ∧ sg.trgNeuronGroup.numNeurons > blockSize then
      true
    else if sg.getSpanType = SpanType.PRESYNAPTIC ∧ sg.srcNeuronGroup.numNeurons > blockSize then
      true
    else
      false
  else
    false

/-! ## Kernel sizes -/

/-- The amount by which `calcKernelSizes` advances the cumulative sum, before
it is added: the padded size of the source neuron count, of the
max-connections bound or of the target neuron count. -/
def kernelPadding (sg : SynapseGroup) (blockSize : Nat) : ℚ :=
  if sg.isSparse then
    if sg.getSpanType = SpanType.PRESYNAPTIC then
      paddedSize (sg.srcNeuronGroup.numNeurons : ℚ) (blockSize : ℚ)
    else
      paddedSize (sg.getMaxConnections : ℚ) (blockSize : ℚ)
  else
    paddedSize (sg.trgNeuronGroup.numNeurons : ℚ) (blockSize : ℚ)

/-- `SynapseGroup::calcKernelSizes`: returns the group after the call and the
value left in the caller's `paddedCumSum`. -/
def calcKernelSizes (sg : SynapseGroup) (blockSize paddedCumSum : Nat) :
    SynapseGroup × Nat :=
  let first := paddedCumSum
  let paddedCumSum := doubleToUInt ((paddedCumSum : ℚ) + sg.kernelPadding blockSize)
  ({ sg with paddedKernelCumSum := (first, paddedCumSum) }, paddedCumSum)

/-- `SynapseGroup::getPaddedDynKernelSize`. -/
def getPaddedDynKernelSize (sg : SynapseGroup) (blockSize : Nat) : Nat :=
  if sg.isSparse then
    doubleToUInt (paddedSize
      ((sg.srcNeuronGroup.numNeurons : ℚ) * (sg.getMaxConnections : ℚ)) (blockSize : ℚ))
  else
    doubleToUInt (paddedSize
      ((sg.srcNeuronGroup.numNeurons : ℚ) * (sg.trgNeuronGroup.numNeurons : ℚ))
      (blockSize : ℚ))

/-- `SynapseGroup::getPaddedPostLearnKernelSize`. -/
def getPaddedPostLearnKernelSize (sg : SynapseGroup) (blockSize : Nat) : Nat :=
  doubleToUInt (paddedSize (sg.srcNeuronGroup.numNeurons : ℚ) (blockSize : ℚ))

/-! ## Derived parameters -/

/-- `SynapseGroup::initDerivedParams`.  The two `reserve` calls change no
element of the vectors; each loop appends one value per derived parameter of
its model, in declaration order. -/
def initDerivedParams (sg : SynapseGroup) (dt : Scalar) : SynapseGroup :=
  let wuDerivedParams := sg.wuModel.derivedParams
  let psDerivedParams := sg.psModel.derivedParams
  { sg with
    wuDerivedParams :=
      wuDerivedParams.foldl (fun v d => v ++ [d.2 sg.wuParams dt]) sg.wuDerivedParams
    psDerivedParams :=
      psDerivedParams.foldl (fun v d => v ++ [d.2 sg.psParams dt]) sg.psDerivedParams }

/-! ## Extra global parameters -/

/-- `SynapseGroup::addExtraGlobalSimParams`.  The map of kernel parameters,
a `std::map<std::string, std::string>`, is carried as an association list
with at most one entry per key; `insert` adds the entry at the end. -/
def addExtraGlobalSimParams (sg : SynapseGroup) (groupName suffix : String)
    (extraGlobalParameters : StringPairVec) (kernelParameters : KernelParameters) :
    KernelParameters :=
  extraGlobalParameters.foldl (fun kernelParameters p =>
    let pnamefull := p.1 ++ groupName
    if kernelParameters.lookup pnamefull = none then
      if codeFind sg.wuModel.simCode ("$(" ++ p.1 ++ suffix ++ ")")
          || codeFind sg.wuModel.eventCode ("$(" ++ p.1 ++ suffix ++ ")")
          || codeFind sg.wuModel.eventThresholdConditionCode ("$(" ++ p.1 ++ suffix ++ ")") then
        kernelParameters ++ [(pnamefull, p.2)]
      else
        kernelParameters
    else
      kernelParameters) kernelParameters

/-- `SynapseGroup::addExtraGlobalPostLearnParams`. -/
def addExtraGlobalPostLearnParams (sg : SynapseGroup) (groupName suffix : String)
    (extraGlobalParameters : StringPairVec) (kernelParameters : KernelParameters) :
    KernelParameters :=
  extraGlobalParameters.foldl (fun kernelParameters p =>
    let pnamefull := p.1 ++ groupName
    if kernelParameters.lookup pnamefull = none then
      if codeFind sg.wuModel.learnPostCode ("$(" ++ p.1 ++ suffix) then
        kernelParameters ++ [(pnamefull, p.2)]
      else
        kernelParameters
    else
      kernelParameters) kernelParameters

/-- `SynapseGroup::addExtraGlobalSynapseDynamicsParams`. -/
def addExtraGlobalSynapseDynamicsParams (sg : SynapseGroup) (groupName suffix : String)
    (extraGlobalParameters : StringPairVec) (kernelParameters : KernelParameters) :
    KernelParameters :=
  extraGlobalParameters.foldl (fun kernelParameters p =>
    let pnamefull := p.1 ++ groupName
    if kernelParameters.lookup pnamefull = none then
      if codeFind sg.wuModel.synapseDynamicsCode ("$(" ++ p.1 ++ suffix) then
        kernelParameters ++ [(pnamefull, p.2)]
      else
        kernelParameters
    else
      kernelParameters) kernelParameters

/-- `SynapseGroup::addExtraGlobalParams`: the nine calls of the source, in
order.  The first two calls of each region pass the name of the source neuron
group. -/
def addExtraGlobalParams (sg : SynapseGroup) (groupName : String)
    (kernelParameters : KernelParameters) : KernelParameters :=
  let kp := sg.addExtraGlobalSimParams sg.srcNeuronGroup.name "_pre"
    sg.srcNeuronGroup.neuronModel.extraGlobalParams kernelParameters
  let kp := sg.addExtraGlobalSimParams sg.srcNeuronGroup.name "_post"
    sg.trgNeuronGroup.neuronModel.extraGlobalParams kp
  let kp := sg.addExtraGlobalSimParams groupName "" sg.wuModel.extraGlobalParams kp
  let kp := sg.addExtraGlobalPostLearnParams sg.srcNeuronGroup.name "_pre"
    sg.srcNeuronGroup.neuronModel.extraGlobalParams kp
  let kp := sg.addExtraGlobalPostLearnParams sg.srcNeuronGroup.name "_post"
    sg.trgNeuronGroup.neuronModel.extraGlobalParams kp
  let kp := sg.addExtraGlobalPostLearnParams groupName "" sg.wuModel.extraGlobalParams kp
  let kp := sg.addExtraGlobalSynapseDynamicsParams sg.srcNeuronGroup.name "_pre"
    sg.srcNeuronGroup.neuronModel.extraGlobalParams kp
  let kp := sg.addExtraGlobalSynapseDynamicsParams sg.srcNeuronGroup.name "_post"
    sg.trgNeuronGroup.neuronModel.extraGlobalParams kp
  sg.addExtraGlobalSynapseDynamicsParams groupName "" sg.wuModel.extraGlobalParams kp

/-! ## Offsets -/

/-- `SynapseGroup::getOffsetPre`; `to_string` of an `unsigned int` is its
decimal rendering. -/
def getOffsetPre (sg : SynapseGroup) : String :=
  if sg.srcNeuronGroup.delayRequired then
    "(delaySlot * " ++ toString sg.srcNeuronGroup.numNeurons ++ ") + "
  else
    ""

end SynapseGroup

/-- The calling protocol of `calcKernelSizes`: one call per group, in list
order, each call receiving the accumulator left by the previous one.  Returns
the groups after their calls and the final accumulator. -/
def calcAllKernelSizes (blockSize : Nat) :
    List SynapseGroup → Nat → List SynapseGroup × Nat
  | [], acc => ([], acc)
  | sg :: rest, acc =>
    let r := sg.calcKernelSizes blockSize acc
    let rs := calcAllKernelSizes blockSize rest r.2
    (r.1 :: rs.1, rs.2)

/-- The `(start, end)` pairs recorded in a list of groups. -/
def recordedRanges (gs : List SynapseGroup) : List (Nat × Nat) :=
  gs.map (fun sg => sg.paddedKernelCumSum)

/-! ## The specification's padded sizes -/

/-- The raw work size the specification assigns to a group for the main
kernel: the source neuron count for a sparse group with PRESYNAPTIC span, the
max-connections bound for a sparse group with POSTSYNAPTIC span, the target
neuron count for a group that is not sparse. -/
def specRawSize (sg : SynapseGroup) : Nat :=
  if sg.isSparse then
    match sg.spanType with
    | SpanType.PRESYNAPTIC => sg.srcNeuronGroup.numNeurons
    | SpanType.POSTSYNAPTIC => sg.maxConnections
  else
    sg.trgNeuronGroup.numNeurons

/-- The specification's padding `ceil(rawSize / blockSize) * blockSize`, as a
natural number. -/
def specPadded (rawSize blockSize : Nat) : Nat :=
  ⌈(rawSize : ℚ) / (blockSize : ℚ)⌉₊ * blockSize

/-- The padded main-kernel size of a group according to the specification. -/
def specPaddedSize (sg : SynapseGroup) (blockSize : Nat) : Nat :=
  specPadded (specRawSize sg) blockSize

/-- The raw work size the specification assigns to a group for the
synapse-dynamics kernel: source count times max-connections bound for a sparse
group, source count times target count otherwise. -/
def specDynRawSize (sg : SynapseGroup) : Nat :=
  if sg.isSparse then
    sg.srcNeuronGroup.numNeurons * sg.maxConnections
  else
    sg.srcNeuronGroup.numNeurons * sg.trgNeuronGroup.numNeurons

/-- The ranges the specification expects from threading an accumulator that
starts at `acc` through the groups: each group starts where the previous one
ended and is as wide as its padded size. -/
def specRanges (blockSize : Nat) : List SynapseGroup → Nat → List (Nat × Nat)
  | [], _ => []
  | sg :: rest, acc =>
    (acc, acc + specPaddedSize sg blockSize)
      :: specRanges blockSize rest (acc + specPaddedSize sg blockSize)

/-- The sum of the specification's padded sizes of a list of groups. -/
def specTotal (blockSize : Nat) (gs : List SynapseGroup) : Nat :=
  (gs.map (fun sg => specPaddedSize sg blockSize)).sum

/-! ## Example groups -/

/-- A neuron group of `n` neurons without delay and without extra global
parameters. -/
def exampleNeurons (name : String) (n : Nat) : NeuronGroup :=
  { name := name, numNeurons := n, delayRequired := false,
    neuronModel := { extraGlobalParams := [] } }

/-- A synapse group with the given connectivity, span, max-connections bound
and source and target neuron counts; its weight-update model declares the
variable `g`, its postsynaptic model the variable `inSyn`. -/
def exampleGroup (matrixType : Nat) (spanType : SpanType)
    (maxConnections numSrc numTrg : Nat) : SynapseGroup :=
  { matrixType := matrixType
    spanType := spanType
    maxConnections := maxConnections
    srcNeuronGroup := exampleNeurons "Pre" numSrc
    trgNeuronGroup := exampleNeurons "Post" numTrg
    wuModel :=
      { vars := [("g", "scalar")], derivedParams := [], extraGlobalParams := [],
        simCode := "", eventCode := "", eventThresholdConditionCode := "",
        learnPostCode := "", synapseDynamicsCode := "" }
    psModel := { vars := [("inSyn", "scalar")], derivedParams := [] }
    wuParams := []
    psParams := []
    wuDerivedParams := []
    psDerivedParams := []
    wuVarZeroCopyEnabled := ∅
    psVarZeroCopyEnabled := ∅
    paddedKernelCumSum := (0, 0) }

/-- A dense group with `numTrg` target neurons. -/
def denseGroup (numTrg : Nat) : SynapseGroup :=
  exampleGroup SynapseMatrixConnectivity.DENSE SpanType.POSTSYNAPTIC 0 10 numTrg

/-- A sparse group. -/
def sparseGroup (spanType : SpanType) (maxConnections numSrc numTrg : Nat) : SynapseGroup :=
  exampleGroup SynapseMatrixConnectivity.SPARSE spanType maxConnections numSrc numTrg

/-- The common shape of the three collectors: every candidate parameter whose
full name is not yet a key and which the test `used` accepts is added with
its declared type. -/
def collectParams (used : String → Bool) (groupName : String)
    (extraGlobalParameters : StringPairVec) (kernelParameters : KernelParameters) :
    KernelParameters :=
  extraGlobalParameters.foldl (fun kernelParameters p =>
    if kernelParameters.lookup (p.1 ++ groupName) = none then
      if used p.1 then kernelParameters ++ [(p.1 ++ groupName, p.2)] else kernelParameters
    else
      kernelParameters) kernelParameters

/-- A group named after its extra global parameters: the source neuron group
`Pre` and the target neuron group `Post` declare the given parameters, and
the weight-update model declares the given parameters and code. -/
def egpGroup (srcParams trgParams wuParams : StringPairVec)
    (simCode eventCode learnPostCode synapseDynamicsCode : String) : SynapseGroup :=
  { matrixType := SynapseMatrixConnectivity.SPARSE
    spanType := SpanType.POSTSYNAPTIC
    maxConnections := 8
    srcNeuronGroup :=
      { name := "Pre", numNeurons := 10, delayRequired := false,
        neuronModel := { extraGlobalParams := srcParams } }
    trgNeuronGroup :=
      { name := "Post", numNeurons := 10, delayRequired := false,
        neuronModel := { extraGlobalParams := trgParams } }
    wuModel :=
      { vars := [("g", "scalar")], derivedParams := [], extraGlobalParams := wuParams,
        simCode := simCode, eventCode := eventCode, eventThresholdConditionCode := "",
        learnPostCode := learnPostCode, synapseDynamicsCode := synapseDynamicsCode }
    psModel := { vars := [("inSyn", "scalar")], derivedParams := [] }
    wuParams := []
    psParams := []
    wuDerivedParams := []
    psDerivedParams := []
    wuVarZeroCopyEnabled := ∅
    psVarZeroCopyEnabled := ∅
    paddedKernelCumSum := (0, 0) }

/-- The weight-update sim code reads the source neuron group's parameter `g`
through `$(g_pre)`; the target neuron model declares a parameter `g` too. -/
def preScopeGroup : SynapseGroup :=
  egpGroup [("g", "scalar*")] [("g", "float*")] [] "$(addtoinSyn) = $(g_pre);" "" "" ""

/-- The weight-update sim code reads `g` of both neuron groups, through
`$(g_pre)` and `$(g_post)`. -/
def prePostScopeGroup : SynapseGroup :=
  egpGroup [("g", "scalar*")] [("g", "float*")] []
    "$(addtoinSyn) = $(g_pre) * $(g_post);" "" "" ""

/-- The source neuron model declares `k` and `g`, the weight-update model
declares `w`; the sim code reads `$(g_pre)` and `$(w)`. -/
def mixedScopeGroup : SynapseGroup :=
  egpGroup [("k", "int"), ("g", "scalar*")] [("g", "float*")] [("w", "scalar")]
    "$(addtoinSyn) = $(g_pre) * $(w);" "" "" ""

/-- The weight-update model declares `g` and `gScale`; its learn-post code
and its synapse-dynamics code read `$(gScale)` only. -/
def prefixGroup : SynapseGroup :=
  egpGroup [] [] [("g", "scalar*"), ("gScale", "scalar")]
    "" "" "$(w) += $(gScale);" "$(w) *= $(gScale);"

/-- The weight-update model declares `g`, read by the synapse-dynamics code
only. -/
def dynamicsGroup : SynapseGroup :=
  egpGroup [] [] [("g", "scalar*")] "" "" "" "$(w) += $(g);"

/-- A freshly built group whose weight-update model derives `dt / tau` and
`dt * tau` from its parameter `tau = 20` and whose postsynaptic model derives
`dt + tau` from its parameter `tau = 5`. -/
def derivedGroup : SynapseGroup :=
  { exampleGroup SynapseMatrixConnectivity.DENSE SpanType.POSTSYNAPTIC 0 10 10 with
    wuModel :=
      { vars := [("g", "scalar")]
        derivedParams :=
          [("ratio", fun pars dt => dt / pars.headD 1), ("scaled", fun pars dt => dt * pars.headD 1)]
        extraGlobalParams := [], simCode := "", eventCode := "",
        eventThresholdConditionCode := "", learnPostCode := "", synapseDynamicsCode := "" }
    psModel :=
      { vars := [("inSyn", "scalar")]
        derivedParams := [("shifted", fun pars dt => dt + pars.headD 0)] }
    wuParams := [20]
    psParams := [5] }

/-- A group whose source neuron group, of 100 neurons, requires a delay
queue. -/
def delayedGroup : SynapseGroup :=
  { denseGroup 10 with
    srcNeuronGroup :=
      { name := "Pre", numNeurons := 100, delayRequired := true,
        neuronModel := { extraGlobalParams := [] } } }

/-! ## Arithmetic of the padding -/

theorem paddedSize_natCast (a b : Nat) :
    paddedSize (a : ℚ) (b : ℚ) = ((specPadded a b : Nat) : ℚ) := by
  have h0 : (0 : ℚ) ≤ (a : ℚ) / (b : ℚ) := by positivity
  unfold paddedSize specPadded
  rw [← natCast_ceil_eq_intCast_ceil h0]
  push_cast
  rfl

theorem doubleToUInt_natCast (n : Nat) : doubleToUInt (n : ℚ) = n % UINT_RANGE := by
  unfold doubleToUInt
  rw [Int.floor_natCast, Int.toNat_natCast]

theorem doubleToUInt_paddedSize (a b : Nat) :
    doubleToUInt (paddedSize (a : ℚ) (b : ℚ)) = specPadded a b % UINT_RANGE := by
  rw [paddedSize_natCast, doubleToUInt_natCast]

theorem doubleToUInt_add_paddedSize (c a b : Nat) :
    doubleToUInt ((c : ℚ) + paddedSize (a : ℚ) (b : ℚ))
      = (c + specPadded a b) % UINT_RANGE := by
  rw [paddedSize_natCast, ← Nat.cast_add, doubleToUInt_natCast]

theorem specPadded_ge (a b : Nat) (hb : 0 < b) : a ≤ specPadded a b := by
  have hb' : (0 : ℚ) < (b : ℚ) := by exact_mod_cast hb
  have h := Nat.le_ceil ((a : ℚ) / (b : ℚ))
  rw [div_le_iff₀ hb'] at h
  unfold specPadded
  exact_mod_cast h

theorem specPadded_lt (a b : Nat) (hb : 0 < b) : specPadded a b < a + b := by
  have hb' : (0 : ℚ) < (b : ℚ) := by exact_mod_cast hb
  have h0 : (0 : ℚ) ≤ (a : ℚ) / (b : ℚ) := by positivity
  have h := Nat.ceil_lt_add_one h0
  have h2 : ((⌈(a : ℚ) / (b : ℚ)⌉₊ : ℚ)) * b < ((a : ℚ) / b + 1) * b :=
    mul_lt_mul_of_pos_right h hb'
  have h3 : ((a : ℚ) / b + 1) * b = a + b := by field_simp
  rw [h3] at h2
  unfold specPadded
  exact_mod_cast h2

theorem specPadded_dvd (a b : Nat) : b ∣ specPadded a b :=
  Dvd.intro_left _ rfl

theorem specPadded_least (a b m : Nat) (hb : 0 < b) (hdvd : b ∣ m) (hm : a ≤ m) :
    specPadded a b ≤ m := by
  obtain ⟨k, rfl⟩ := hdvd
  have hb' : (0 : ℚ) < (b : ℚ) := by exact_mod_cast hb
  have hk : ⌈(a : ℚ) / (b : ℚ)⌉₊ ≤ k := by
    rw [Nat.ceil_le, div_le_iff₀ hb']
    have hq : (a : ℚ) ≤ ((b * k : Nat) : ℚ) := by exact_mod_cast hm
    push_cast at hq
    linarith
  calc specPadded a b = ⌈(a : ℚ) / (b : ℚ)⌉₊ * b := rfl
    _ ≤ k * b := Nat.mul_le_mul_right b hk
    _ = b * k := Nat.mul_comm k b

/-- The padding in integer arithmetic, for evaluation on concrete sizes. -/
theorem specPadded_eq_div (a b : Nat) (hb : 0 < b) :
    specPadded a b = (a + b - 1) / b * b := by
  have hmod := Nat.div_add_mod (a + b - 1) b
  have hlt := Nat.mod_lt (a + b - 1) hb
  have hcomm : b * ((a + b - 1) / b) = (a + b - 1) / b * b := Nat.mul_comm _ _
  have hge : a ≤ (a + b - 1) / b * b := by omega
  have hup : (a + b - 1) / b * b < a + b := by omega
  have h1 : specPadded a b ≤ (a + b - 1) / b * b :=
    specPadded_least a b _ hb (Dvd.intro_left _ rfl) hge
  have h2 : (a + b - 1) / b * b ≤ specPadded a b := by
    have hlt2 : (a + b - 1) / b * b < (⌈(a : ℚ) / (b : ℚ)⌉₊ + 1) * b := by
      have := specPadded_ge a b hb
      unfold specPadded at this
      rw [Nat.add_mul, Nat.one_mul]
      omega
    have := Nat.lt_of_mul_lt_mul_right hlt2
    exact Nat.mul_le_mul_right b (Nat.lt_succ_iff.mp this)
  exact Nat.le_antisymm h1 h2

theorem kernelPadding_eq (sg : SynapseGroup) (blockSize : Nat) :
    sg.kernelPadding blockSize = ((specPaddedSize sg blockSize : Nat) : ℚ) := by
  unfold SynapseGroup.kernelPadding specPaddedSize specRawSize
    SynapseGroup.getSpanType SynapseGroup.getMaxConnections
  cases hsp : sg.isSparse <;> cases hspan : sg.spanType <;>
    simp [paddedSize_natCast]

/-- The value `calcKernelSizes` leaves in the accumulator, in natural-number
arithmetic. -/
theorem calcKernelSizes_snd (sg : SynapseGroup) (blockSize c : Nat) :
    (sg.calcKernelSizes blockSize c).2 = (c + specPaddedSize sg blockSize) % UINT_RANGE := by
  unfold SynapseGroup.calcKernelSizes
  simp only [kernelPadding_eq]
  rw [← Nat.cast_add, doubleToUInt_natCast]

/-- The pair `calcKernelSizes` records in the group. -/
theorem calcKernelSizes_fst (sg : SynapseGroup) (blockSize c : Nat) :
    (sg.calcKernelSizes blockSize c).1.paddedKernelCumSum
      = (c, (c + specPaddedSize sg blockSize) % UINT_RANGE) := by
  have h := calcKernelSizes_snd sg blockSize c
  unfold SynapseGroup.calcKernelSizes at h ⊢
  simp only at h ⊢
  rw [h]

/-! ## Threading the accumulator -/

theorem specTotal_cons (blockSize : Nat) (sg : SynapseGroup) (gs : List SynapseGroup) :
    specTotal blockSize (sg :: gs) = specPaddedSize sg blockSize + specTotal blockSize gs := by
  simp [specTotal]

/-- While the accumulator stays below `2 ^ 32`, the recorded ranges are the
ranges of the specification and the accumulator ends at the total. -/
theorem calcAllKernelSizes_eq_specRanges (blockSize : Nat) :
    ∀ (gs : List SynapseGroup) (c : Nat), c + specTotal blockSize gs < UINT_RANGE →
      recordedRanges (calcAllKernelSizes blockSize gs c).1 = specRanges blockSize gs c ∧
      (calcAllKernelSizes blockSize gs c).2 = c + specTotal blockSize gs
  | [], c, _ => by simp [calcAllKernelSizes, recordedRanges, specRanges, specTotal]
  | sg :: rest, c, h => by
    rw [specTotal_cons] at h
    have hlt : c + specPaddedSize sg blockSize < UINT_RANGE := by omega
    have hsnd : (sg.calcKernelSizes blockSize c).2 = c + specPaddedSize sg blockSize := by
      rw [calcKernelSizes_snd, Nat.mod_eq_of_lt hlt]
    have hfst : (sg.calcKernelSizes blockSize c).1.paddedKernelCumSum
        = (c, c + specPaddedSize sg blockSize) := by
      rw [calcKernelSizes_fst, Nat.mod_eq_of_lt hlt]
    have ih := calcAllKernelSizes_eq_specRanges blockSize rest
      (c + specPaddedSize sg blockSize) (by omega)
    constructor
    · simp only [calcAllKernelSizes, recordedRanges, List.map_cons, specRanges, hsnd, hfst]
      rw [← ih.1]
      rfl
    · simp only [calcAllKernelSizes, hsnd, specTotal_cons]
      rw [ih.2]
      omega

theorem specRanges_mem (blockSize : Nat) :
    ∀ (gs : List SynapseGroup) (c : Nat) (r : Nat × Nat), r ∈ specRanges blockSize gs c →
      c ≤ r.1 ∧ r.1 ≤ r.2 ∧ r.2 ≤ c + specTotal blockSize gs
  | [], _, r, h => by simp [specRanges] at h
  | sg :: rest, c, r, h => by
    rw [specTotal_cons]
    simp only [specRanges, List.mem_cons] at h
    rcases h with h | h
    · subst h
      simp only
      omega
    · have ih := specRanges_mem blockSize rest _ r h
      omega

theorem specRanges_pairwise (blockSize : Nat) :
    ∀ (gs : List SynapseGroup) (c : Nat),
      List.Pairwise (fun p q : Nat × Nat => p.2 ≤ q.1) (specRanges blockSize gs c)
  | [], _ => by simp [specRanges]
  | sg :: rest, c => by
    simp only [specRanges, List.pairwise_cons]
    exact ⟨fun r hr => (specRanges_mem blockSize rest _ r hr).1,
      specRanges_pairwise blockSize rest _⟩

theorem specRanges_chain (blockSize : Nat) :
    ∀ (gs : List SynapseGroup) (c : Nat),
      List.Chain' (fun p q : Nat × Nat => q.1 = p.2) (specRanges blockSize gs c)
  | [], _ => by simp [specRanges]
  | [sg], c => by simp [specRanges]
  | sg :: sg2 :: rest, c => by
    have ih := specRanges_chain blockSize (sg2 :: rest) (c + specPaddedSize sg blockSize)
    simp only [specRanges, List.chain'_cons] at ih ⊢
    exact ⟨trivial, ih⟩

theorem specRanges_head (blockSize : Nat) (gs : List SynapseGroup) (c : Nat) :
    ∀ r ∈ (specRanges blockSize gs c).head?, r.1 = c := by
  cases gs <;> simp [specRanges]

theorem specRanges_getLast (blockSize : Nat) :
    ∀ (gs : List SynapseGroup) (c : Nat),
      ∀ r ∈ (specRanges blockSize gs c).getLast?, r.2 = c + specTotal blockSize gs
  | [], _ => by simp [specRanges]
  | [sg], c => by simp [specRanges, specTotal]
  | sg :: sg2 :: rest, c => by
    have ih := specRanges_getLast blockSize (sg2 :: rest) (c + specPaddedSize sg blockSize)
    intro r hr
    rw [specTotal_cons, ← Nat.add_assoc]
    apply ih
    simpa [specRanges, List.getLast?_cons_cons] using hr

theorem specRanges_widths (blockSize : Nat) :
    ∀ (gs : List SynapseGroup) (c : Nat),
      List.Forall₂ (fun (sg : SynapseGroup) (r : Nat × Nat) =>
        r.2 = r.1 + specPaddedSize sg blockSize) gs (specRanges blockSize gs c)
  | [], _ => by simp [specRanges]
  | sg :: rest, c => by
    simp only [specRanges, List.forall₂_cons, true_and]
    exact specRanges_widths blockSize rest _

/-! ## Kernel-size planning -/

/-- C1, counterexample.  A dense group with 33 target neurons, block size 32
and incoming offset `2 ^ 32 - 32`: the padded size is 64, the sum
`2 ^ 32 + 32` does not fit the `unsigned int` accumulator, and the range end
and the accumulator hold 32. -/
theorem calcKernelSizes_offset_overflow :
    ((denseGroup 33).calcKernelSizes 32 4294967264).1.paddedKernelCumSum = (4294967264, 32) ∧
    ((denseGroup 33).calcKernelSizes 32 4294967264).2 = 32 ∧
    4294967264 + ⌈((33 : Nat) : ℚ) / ((32 : Nat) : ℚ)⌉₊ * 32 = 4294967328 ∧
    ((denseGroup 33).calcKernelSizes 32 4294967264).2
      ≠ 4294967264 + specPaddedSize (denseGroup 33) 32 := by
  have hp : specPaddedSize (denseGroup 33) 32 = 64 := by
    simp [specPaddedSize, specRawSize, denseGroup, exampleGroup, exampleNeurons,
      SynapseGroup.isSparse, SynapseMatrixConnectivity.SPARSE, SynapseMatrixConnectivity.DENSE,
      specPadded_eq_div]
  have hc : (⌈((33 : Nat) : ℚ) / ((32 : Nat) : ℚ)⌉₊ * 32 : Nat) = 64 := by
    have := specPadded_eq_div 33 32 (by decide)
    unfold specPadded at this
    rw [this]
  refine ⟨?_, ?_, ?_, ?_⟩
  · rw [calcKernelSizes_fst, hp]; decide
  · rw [calcKernelSizes_snd, hp]; decide
  · rw [hc]
  · rw [calcKernelSizes_snd, hp]; decide

/-- C1, amended.  For every group, every block size above zero and every
incoming offset `c` such that `c + ceil(raw / blockSize) * blockSize` is below
`2 ^ 32`, `calcKernelSizes` records `c` as range start and sets the range end
and the accumulator to that sum, where `raw` is the source neuron count
(sparse, PRESYNAPTIC), the max-connections bound (sparse, POSTSYNAPTIC) or the
target neuron count (not sparse). -/
theorem calcKernelSizes_records (sg : SynapseGroup) (blockSize c : Nat)
    (hbs : 0 < blockSize)
    (hfit : c + specPaddedSize sg blockSize < UINT_RANGE) :
    (sg.calcKernelSizes blockSize c).1.paddedKernelCumSum.1 = c ∧
    (sg.calcKernelSizes blockSize c).1.paddedKernelCumSum.2
      = c + specPaddedSize sg blockSize ∧
    (sg.calcKernelSizes blockSize c).2 = c + specPaddedSize sg blockSize ∧
    (sg.isSparse = true → sg.spanType = SpanType.PRESYNAPTIC →
      specPaddedSize sg blockSize
        = ⌈(sg.srcNeuronGroup.numNeurons : ℚ) / (blockSize : ℚ)⌉₊ * blockSize) ∧
    (sg.isSparse = true → sg.spanType = SpanType.POSTSYNAPTIC →
      specPaddedSize sg blockSize
        = ⌈(sg.maxConnections : ℚ) / (blockSize : ℚ)⌉₊ * blockSize) ∧
    (sg.isSparse = false →
      specPaddedSize sg blockSize
        = ⌈(sg.trgNeuronGroup.numNeurons : ℚ) / (blockSize : ℚ)⌉₊ * blockSize) := by
  have _ := hbs
  refine ⟨?_, ?_, ?_, ?_, ?_, ?_⟩
  · rw [calcKernelSizes_fst]
  · rw [calcKernelSizes_fst, Nat.mod_eq_of_lt hfit]
  · rw [calcKernelSizes_snd, Nat.mod_eq_of_lt hfit]
  · intro h1 h2; simp [specPaddedSize, specRawSize, specPadded, h1, h2]
  · intro h1 h2; simp [specPaddedSize, specRawSize, specPadded, h1, h2]
  · intro h1; simp [specPaddedSize, specRawSize, specPadded, h1]

theorem calcKernelSizes_records_witness :
    0 < 32 ∧ 64 + specPaddedSize (sparseGroup SpanType.PRESYNAPTIC 5 33 7) 32 < UINT_RANGE ∧
    ((sparseGroup SpanType.PRESYNAPTIC 5 33 7).calcKernelSizes 32 64).1.paddedKernelCumSum
      = (64, 128) ∧
    ((sparseGroup SpanType.PRESYNAPTIC 5 33 7).calcKernelSizes 32 64).2 = 128 := by
  have hp : specPaddedSize (sparseGroup SpanType.PRESYNAPTIC 5 33 7) 32 = 64 := by
    simp [specPaddedSize, specRawSize, sparseGroup, exampleGroup, exampleNeurons,
      SynapseGroup.isSparse, SynapseMatrixConnectivity.SPARSE, specPadded_eq_div]
  have hfit : 64 + specPaddedSize (sparseGroup SpanType.PRESYNAPTIC 5 33 7) 32 < UINT_RANGE := by
    rw [hp]; decide
  have h := calcKernelSizes_records (sparseGroup SpanType.PRESYNAPTIC 5 33 7) 32 64
    (by decide) hfit
  rw [hp] at h
  exact ⟨by decide, hfit, Prod.ext h.1 h.2.1, h.2.2.1⟩

theorem specPaddedSize_denseGroup (numTrg blockSize : Nat) (hbs : 0 < blockSize) :
    specPaddedSize (denseGroup numTrg) blockSize
      = (numTrg + blockSize - 1) / blockSize * blockSize := by
  rw [← specPadded_eq_div numTrg blockSize hbs]
  simp [specPaddedSize, specRawSize, denseGroup, exampleGroup, exampleNeurons,
    SynapseGroup.isSparse, SynapseMatrixConnectivity.SPARSE, SynapseMatrixConnectivity.DENSE]

/-- C2, counterexample.  Two dense groups of `2 ^ 31` target neurons each,
block size 32, accumulator starting at 0: the padded sizes are `2 ^ 31` each
and sum to `2 ^ 32`, but the final accumulator and the last range end are 0. -/
theorem calcAllKernelSizes_total_overflow :
    recordedRanges (calcAllKernelSizes 32 [denseGroup 2147483648, denseGroup 2147483648] 0).1
      = [(0, 2147483648), (2147483648, 0)] ∧
    (calcAllKernelSizes 32 [denseGroup 2147483648, denseGroup 2147483648] 0).2 = 0 ∧
    specTotal 32 [denseGroup 2147483648, denseGroup 2147483648] = 4294967296 ∧
    (calcAllKernelSizes 32 [denseGroup 2147483648, denseGroup 2147483648] 0).2
      ≠ specTotal 32 [denseGroup 2147483648, denseGroup 2147483648] := by
  have hp : specPaddedSize (denseGroup 2147483648) 32 = 2147483648 := by
    rw [specPaddedSize_denseGroup _ _ (by decide)]
  have hr : recordedRanges
      (calcAllKernelSizes 32 [denseGroup 2147483648, denseGroup 2147483648] 0).1
      = [(0, 2147483648), (2147483648, 0)] := by
    simp only [calcAllKernelSizes, recordedRanges, List.map, calcKernelSizes_fst,
      calcKernelSizes_snd, hp]
    decide
  have ha : (calcAllKernelSizes 32 [denseGroup 2147483648, denseGroup 2147483648] 0).2 = 0 := by
    simp only [calcAllKernelSizes, calcKernelSizes_snd, hp]
    decide
  have ht : specTotal 32 [denseGroup 2147483648, denseGroup 2147483648] = 4294967296 := by
    simp only [specTotal, List.map, hp, List.sum_cons, List.sum_nil]
    decide
  refine ⟨hr, ha, ht, ?_⟩
  rw [ha, ht]
  decide

/-- C2, amended.  For every list of groups and every block size above zero
such that the padded sizes of the groups sum to less than `2 ^ 32`, threading
one accumulator from 0 through `calcKernelSizes` in list order yields
contiguous ranges: the first start is 0, every later start is the previous
end, every range is as wide as its group's padded size, and the final
accumulator is the last end and the sum of the padded sizes. -/
theorem calcAllKernelSizes_contiguous (gs : List SynapseGroup) (blockSize : Nat)
    (hbs : 0 < blockSize) (hfit : specTotal blockSize gs < UINT_RANGE) :
    (∀ r ∈ (recordedRanges (calcAllKernelSizes blockSize gs 0).1).head?, r.1 = 0) ∧
    List.Chain' (fun p q : Nat × Nat => q.1 = p.2)
      (recordedRanges (calcAllKernelSizes blockSize gs 0).1) ∧
    List.Forall₂ (fun (sg : SynapseGroup) (r : Nat × Nat) =>
        r.2 = r.1 + specPaddedSize sg blockSize)
      gs (recordedRanges (calcAllKernelSizes blockSize gs 0).1) ∧
    (∀ r ∈ (recordedRanges (calcAllKernelSizes blockSize gs 0).1).getLast?,
      (calcAllKernelSizes blockSize gs 0).2 = r.2) ∧
    (calcAllKernelSizes blockSize gs 0).2 = specTotal blockSize gs := by
  have _ := hbs
  obtain ⟨hr, ha⟩ := calcAllKernelSizes_eq_specRanges blockSize gs 0 (by omega)
  rw [hr, ha, Nat.zero_add]
  refine ⟨specRanges_head blockSize gs 0, specRanges_chain blockSize gs 0,
    specRanges_widths blockSize gs 0, ?_, rfl⟩
  intro r h
  rw [specRanges_getLast blockSize gs 0 r h, Nat.zero_add]

theorem calcAllKernelSizes_contiguous_witness :
    0 < 32 ∧
    specTotal 32 [denseGroup 33, sparseGroup SpanType.PRESYNAPTIC 5 20 7,
      sparseGroup SpanType.POSTSYNAPTIC 100 20 7] < UINT_RANGE ∧
    recordedRanges (calcAllKernelSizes 32 [denseGroup 33, sparseGroup SpanType.PRESYNAPTIC 5 20 7,
      sparseGroup SpanType.POSTSYNAPTIC 100 20 7] 0).1 = [(0, 64), (64, 96), (96, 224)] ∧
    (calcAllKernelSizes 32 [denseGroup 33, sparseGroup SpanType.PRESYNAPTIC 5 20 7,
      sparseGroup SpanType.POSTSYNAPTIC 100 20 7] 0).2 = 224 := by
  have h1 : specPaddedSize (denseGroup 33) 32 = 64 := by
    rw [specPaddedSize_denseGroup _ _ (by decide)]
  have h2 : specPaddedSize (sparseGroup SpanType.PRESYNAPTIC 5 20 7) 32 = 32 := by
    simp [specPaddedSize, specRawSize, sparseGroup, exampleGroup, exampleNeurons,
      SynapseGroup.isSparse, SynapseMatrixConnectivity.SPARSE, specPadded_eq_div]
  have h3 : specPaddedSize (sparseGroup SpanType.POSTSYNAPTIC 100 20 7) 32 = 128 := by
    simp [specPaddedSize, specRawSize, sparseGroup, exampleGroup, exampleNeurons,
      SynapseGroup.isSparse, SynapseMatrixConnectivity.SPARSE, specPadded_eq_div]
  have ht : specTotal 32 [denseGroup 33, sparseGroup SpanType.PRESYNAPTIC 5 20 7,
      sparseGroup SpanType.POSTSYNAPTIC 100 20 7] = 224 := by
    simp only [specTotal, List.map, h1, h2, h3, List.sum_cons, List.sum_nil]
    decide
  have hfit : specTotal 32 [denseGroup 33, sparseGroup SpanType.PRESYNAPTIC 5 20 7,
      sparseGroup SpanType.POSTSYNAPTIC 100 20 7] < UINT_RANGE := by
    rw [ht]; decide
  have h := calcAllKernelSizes_contiguous [denseGroup 33, sparseGroup SpanType.PRESYNAPTIC 5 20 7,
      sparseGroup SpanType.POSTSYNAPTIC 100 20 7] 32 (by decide) hfit
  refine ⟨by decide, hfit, ?_, ?_⟩
  · simp only [calcAllKernelSizes, recordedRanges, List.map, calcKernelSizes_fst,
      calcKernelSizes_snd, h1, h2, h3]
    decide
  · rw [h.2.2.2.2, ht]

/-- C3, counterexample.  Three dense groups of `2 ^ 31`, `2 ^ 31` and 20
target neurons, block size 32, accumulator starting at 0: the second group
records start `2 ^ 31` above its end 0, and index 0 lies in the range of the
first group and in the range of the third. -/
theorem calcAllKernelSizes_ranges_overlap :
    recordedRanges
        (calcAllKernelSizes 32 [denseGroup 2147483648, denseGroup 2147483648, denseGroup 20] 0).1
      = [(0, 2147483648), (2147483648, 0), (0, 32)] ∧
    ((denseGroup 2147483648).calcKernelSizes 32 2147483648).1.paddedKernelCumSum
      = (2147483648, 0) ∧
    ¬ (((denseGroup 2147483648).calcKernelSizes 32 2147483648).1.paddedKernelCumSum.1
        ≤ ((denseGroup 2147483648).calcKernelSizes 32 2147483648).1.paddedKernelCumSum.2) ∧
    ¬ List.Pairwise
      (fun p q : Nat × Nat => ∀ x : Nat, ¬ ((p.1 ≤ x ∧ x < p.2) ∧ (q.1 ≤ x ∧ x < q.2)))
      (recordedRanges
        (calcAllKernelSizes 32 [denseGroup 2147483648, denseGroup 2147483648, denseGroup 20] 0).1) := by
  have hp : specPaddedSize (denseGroup 2147483648) 32 = 2147483648 := by
    rw [specPaddedSize_denseGroup _ _ (by decide)]
  have hq : specPaddedSize (denseGroup 20) 32 = 32 := by
    rw [specPaddedSize_denseGroup _ _ (by decide)]
  have hr : recordedRanges
        (calcAllKernelSizes 32 [denseGroup 2147483648, denseGroup 2147483648, denseGroup 20] 0).1
      = [(0, 2147483648), (2147483648, 0), (0, 32)] := by
    simp only [calcAllKernelSizes, recordedRanges, List.map, calcKernelSizes_fst,
      calcKernelSizes_snd, hp, hq]
    decide
  refine ⟨hr, ?_, ?_, ?_⟩
  · rw [calcKernelSizes_fst, hp]; decide
  · rw [calcKernelSizes_fst, hp]; decide
  · rw [hr]
    intro h
    have h0 := (List.pairwise_cons.mp h).1 (0, 32) (by simp) 0
    exact h0 ⟨⟨Nat.le_refl 0, by decide⟩, ⟨Nat.le_refl 0, by decide⟩⟩

/-- C3, amended.  For every list of groups, every block size above zero and
every incoming offset `c` such that `c` plus the sum of the groups' padded
sizes is below `2 ^ 32`, threading the accumulator from `c` through
`calcKernelSizes` in list order never decreases it, every recorded range has
start <= end, and the ranges `[start, end)` of two groups at different
positions have no index in common. -/
theorem calcAllKernelSizes_disjoint (gs : List SynapseGroup) (blockSize c : Nat)
    (hbs : 0 < blockSize) (hfit : c + specTotal blockSize gs < UINT_RANGE) :
    c ≤ (calcAllKernelSizes blockSize gs c).2 ∧
    (∀ r ∈ recordedRanges (calcAllKernelSizes blockSize gs c).1, r.1 ≤ r.2) ∧
    List.Pairwise
      (fun p q : Nat × Nat => ∀ x : Nat, ¬ ((p.1 ≤ x ∧ x < p.2) ∧ (q.1 ≤ x ∧ x < q.2)))
      (recordedRanges (calcAllKernelSizes blockSize gs c).1) := by
  have _ := hbs
  obtain ⟨hr, ha⟩ := calcAllKernelSizes_eq_specRanges blockSize gs c hfit
  rw [hr, ha]
  refine ⟨Nat.le_add_right _ _, fun r h => (specRanges_mem blockSize gs c r h).2.1, ?_⟩
  refine (specRanges_pairwise blockSize gs c).imp ?_
  intro p q hpq x hx
  omega

theorem calcAllKernelSizes_disjoint_witness :
    0 < 32 ∧
    100 + specTotal 32 [sparseGroup SpanType.POSTSYNAPTIC 40 20 7, denseGroup 33] < UINT_RANGE ∧
    100 ≤ (calcAllKernelSizes 32 [sparseGroup SpanType.POSTSYNAPTIC 40 20 7, denseGroup 33] 100).2 ∧
    (∀ r ∈ recordedRanges
        (calcAllKernelSizes 32 [sparseGroup SpanType.POSTSYNAPTIC 40 20 7, denseGroup 33] 100).1,
      r.1 ≤ r.2) ∧
    List.Pairwise
      (fun p q : Nat × Nat => ∀ x : Nat, ¬ ((p.1 ≤ x ∧ x < p.2) ∧ (q.1 ≤ x ∧ x < q.2)))
      (recordedRanges
        (calcAllKernelSizes 32 [sparseGroup SpanType.POSTSYNAPTIC 40 20 7, denseGroup 33] 100).1) := by
  have h1 : specPaddedSize (sparseGroup SpanType.POSTSYNAPTIC 40 20 7) 32 = 64 := by
    simp [specPaddedSize, specRawSize, sparseGroup, exampleGroup, exampleNeurons,
      SynapseGroup.isSparse, SynapseMatrixConnectivity.SPARSE, specPadded_eq_div]
  have h2 : specPaddedSize (denseGroup 33) 32 = 64 := by
    rw [specPaddedSize_denseGroup _ _ (by decide)]
  have hfit : 100 + specTotal 32 [sparseGroup SpanType.POSTSYNAPTIC 40 20 7, denseGroup 33]
      < UINT_RANGE := by
    simp only [specTotal, List.map, h1, h2, List.sum_cons, List.sum_nil]
    decide
  exact ⟨by decide, hfit,
    calcAllKernelSizes_disjoint [sparseGroup SpanType.POSTSYNAPTIC 40 20 7, denseGroup 33] 32 100
      (by decide) hfit⟩

/-! ## Standalone padded sizes -/

/-- C4, counterexample.  With `2 ^ 32 - 1` source neurons and block size 32
the lowest multiple of 32 that is at least the neuron count is `2 ^ 32`; the
`unsigned int` returned is 0, which is below the neuron count. -/
theorem getPaddedPostLearnKernelSize_overflow :
    (sparseGroup SpanType.PRESYNAPTIC 0 4294967295 7).getPaddedPostLearnKernelSize 32 = 0 ∧
    ⌈((4294967295 : Nat) : ℚ) / ((32 : Nat) : ℚ)⌉₊ * 32 = 4294967296 ∧
    ¬ ((sparseGroup SpanType.PRESYNAPTIC 0 4294967295 7).srcNeuronGroup.numNeurons
        ≤ (sparseGroup SpanType.PRESYNAPTIC 0 4294967295 7).getPaddedPostLearnKernelSize 32) := by
  have hc : specPadded 4294967295 32 = 4294967296 := by
    rw [specPadded_eq_div _ _ (by decide)]
  have hv : (sparseGroup SpanType.PRESYNAPTIC 0 4294967295 7).getPaddedPostLearnKernelSize 32
      = 0 := by
    have h := doubleToUInt_paddedSize 4294967295 32
    rw [hc] at h
    exact h
  refine ⟨hv, hc, ?_⟩
  rw [hv]
  decide

/-- C4, amended.  For every group and every block size above zero such that
`ceil(N / blockSize) * blockSize` is below `2 ^ 32`, where `N` is the source
neuron count, `getPaddedPostLearnKernelSize` returns that value, and it is
the lowest multiple of the block size that is at least `N`: a multiple of the
block size, at least `N`, below `N + blockSize`, and no larger than any other
such multiple. -/
theorem getPaddedPostLearnKernelSize_lowest_multiple (sg : SynapseGroup) (blockSize : Nat)
    (hbs : 0 < blockSize)
    (hfit : ⌈(sg.srcNeuronGroup.numNeurons : ℚ) / (blockSize : ℚ)⌉₊ * blockSize < UINT_RANGE) :
    sg.getPaddedPostLearnKernelSize blockSize
      = ⌈(sg.srcNeuronGroup.numNeurons : ℚ) / (blockSize : ℚ)⌉₊ * blockSize ∧
    blockSize ∣ sg.getPaddedPostLearnKernelSize blockSize ∧
    sg.srcNeuronGroup.numNeurons ≤ sg.getPaddedPostLearnKernelSize blockSize ∧
    sg.getPaddedPostLearnKernelSize blockSize < sg.srcNeuronGroup.numNeurons + blockSize ∧
    (∀ m : Nat, blockSize ∣ m → sg.srcNeuronGroup.numNeurons ≤ m →
      sg.getPaddedPostLearnKernelSize blockSize ≤ m) := by
  have hv : sg.getPaddedPostLearnKernelSize blockSize
      = specPadded sg.srcNeuronGroup.numNeurons blockSize := by
    unfold SynapseGroup.getPaddedPostLearnKernelSize
    rw [doubleToUInt_paddedSize]
    exact Nat.mod_eq_of_lt hfit
  rw [hv]
  exact ⟨rfl, specPadded_dvd _ _, specPadded_ge _ _ hbs, specPadded_lt _ _ hbs,
    fun m hd hm => specPadded_least _ _ m hbs hd hm⟩

theorem getPaddedPostLearnKernelSize_lowest_multiple_witness :
    0 < 32 ∧
    (sparseGroup SpanType.PRESYNAPTIC 5 33 7).getPaddedPostLearnKernelSize 32 = 64 ∧
    32 ∣ (sparseGroup SpanType.PRESYNAPTIC 5 33 7).getPaddedPostLearnKernelSize 32 ∧
    33 ≤ (sparseGroup SpanType.PRESYNAPTIC 5 33 7).getPaddedPostLearnKernelSize 32 ∧
    (sparseGroup SpanType.PRESYNAPTIC 5 33 7).getPaddedPostLearnKernelSize 32 < 33 + 32 := by
  have hc : specPadded 33 32 = 64 := by
    rw [specPadded_eq_div _ _ (by decide)]
  have hfit : ⌈((sparseGroup SpanType.PRESYNAPTIC 5 33 7).srcNeuronGroup.numNeurons : ℚ)
      / ((32 : Nat) : ℚ)⌉₊ * 32 < UINT_RANGE := by
    have : specPadded 33 32 < UINT_RANGE := by rw [hc]; decide
    exact this
  have h := getPaddedPostLearnKernelSize_lowest_multiple
    (sparseGroup SpanType.PRESYNAPTIC 5 33 7) 32 (by decide) hfit
  have hv : (sparseGroup SpanType.PRESYNAPTIC 5 33 7).getPaddedPostLearnKernelSize 32 = 64 :=
    h.1.trans hc
  exact ⟨by decide, hv, h.2.1, h.2.2.1, h.2.2.2.1⟩

theorem getPaddedDynKernelSize_eq (sg : SynapseGroup) (blockSize : Nat) :
    sg.getPaddedDynKernelSize blockSize
      = specPadded (specDynRawSize sg) blockSize % UINT_RANGE := by
  unfold SynapseGroup.getPaddedDynKernelSize specDynRawSize SynapseGroup.getMaxConnections
  cases hsp : sg.isSparse
  · simp only [Bool.false_eq_true, if_false]
    rw [← Nat.cast_mul, doubleToUInt_paddedSize]
  · simp only [if_true]
    rw [← Nat.cast_mul, doubleToUInt_paddedSize]

/-- C5, counterexample.  A sparse group with 65536 source neurons and a
max-connections bound of 65536, block size 1: the padded size of the raw size
`2 ^ 32` is `2 ^ 32`, and the `unsigned int` returned is 0. -/
theorem getPaddedDynKernelSize_overflow :
    (sparseGroup SpanType.POSTSYNAPTIC 65536 65536 7).getPaddedDynKernelSize 1 = 0 ∧
    ⌈((65536 * 65536 : Nat) : ℚ) / ((1 : Nat) : ℚ)⌉₊ * 1 = 4294967296 ∧
    (sparseGroup SpanType.POSTSYNAPTIC 65536 65536 7).getPaddedDynKernelSize 1
      ≠ ⌈((65536 * 65536 : Nat) : ℚ) / ((1 : Nat) : ℚ)⌉₊ * 1 := by
  have hc : specPadded (65536 * 65536) 1 = 4294967296 := by
    rw [specPadded_eq_div _ _ (by decide)]
  have hraw : specDynRawSize (sparseGroup SpanType.POSTSYNAPTIC 65536 65536 7)
      = 65536 * 65536 := by
    simp [specDynRawSize, sparseGroup, exampleGroup, exampleNeurons,
      SynapseGroup.isSparse, SynapseMatrixConnectivity.SPARSE]
  have hv : (sparseGroup SpanType.POSTSYNAPTIC 65536 65536 7).getPaddedDynKernelSize 1 = 0 := by
    rw [getPaddedDynKernelSize_eq, hraw, hc]
    decide
  have hc2 : ⌈((65536 * 65536 : Nat) : ℚ) / ((1 : Nat) : ℚ)⌉₊ * 1 = 4294967296 := hc
  refine ⟨hv, hc2, ?_⟩
  rw [hv, hc2]
  decide

/-- C5, amended.  For every group and every block size above zero such that
`ceil(raw / blockSize) * blockSize` is below `2 ^ 32`, where `raw` is the
source neuron count times the max-connections bound for a sparse group and
the source neuron count times the target neuron count otherwise,
`getPaddedDynKernelSize` returns that value.  The result depends neither on
the span type nor on the recorded cumulative-sum pair, and the function, a
query, returns no changed group. -/
theorem getPaddedDynKernelSize_padded (sg : SynapseGroup) (blockSize : Nat)
    (hbs : 0 < blockSize)
    (hfit : ⌈(specDynRawSize sg : ℚ) / (blockSize : ℚ)⌉₊ * blockSize < UINT_RANGE) :
    sg.getPaddedDynKernelSize blockSize
      = ⌈(specDynRawSize sg : ℚ) / (blockSize : ℚ)⌉₊ * blockSize ∧
    (sg.isSparse = true →
      specDynRawSize sg = sg.srcNeuronGroup.numNeurons * sg.maxConnections) ∧
    (sg.isSparse = false →
      specDynRawSize sg = sg.srcNeuronGroup.numNeurons * sg.trgNeuronGroup.numNeurons) ∧
    (∀ s : SpanType,
      ({ sg with spanType := s } : SynapseGroup).getPaddedDynKernelSize blockSize
        = sg.getPaddedDynKernelSize blockSize) ∧
    (∀ p : Nat × Nat,
      ({ sg with paddedKernelCumSum := p } : SynapseGroup).getPaddedDynKernelSize blockSize
        = sg.getPaddedDynKernelSize blockSize) := by
  have _ := hbs
  refine ⟨?_, ?_, ?_, ?_, ?_⟩
  · rw [getPaddedDynKernelSize_eq]
    exact Nat.mod_eq_of_lt hfit
  · intro h; simp [specDynRawSize, h]
  · intro h; simp [specDynRawSize, h]
  · intro s; rfl
  · intro p; rfl

theorem getPaddedDynKernelSize_padded_witness :
    0 < 32 ∧
    (sparseGroup SpanType.POSTSYNAPTIC 5 33 7).getPaddedDynKernelSize 32 = 192 ∧
    (sparseGroup SpanType.PRESYNAPTIC 5 33 7).getPaddedDynKernelSize 32 = 192 := by
  have hraw : specDynRawSize (sparseGroup SpanType.POSTSYNAPTIC 5 33 7) = 165 := by
    simp [specDynRawSize, sparseGroup, exampleGroup, exampleNeurons,
      SynapseGroup.isSparse, SynapseMatrixConnectivity.SPARSE]
  have hc : specPadded 165 32 = 192 := by
    rw [specPadded_eq_div _ _ (by decide)]
  have hfit : ⌈(specDynRawSize (sparseGroup SpanType.POSTSYNAPTIC 5 33 7) : ℚ)
      / ((32 : Nat) : ℚ)⌉₊ * 32 < UINT_RANGE := by
    rw [hraw]
    have : specPadded 165 32 < UINT_RANGE := by rw [hc]; decide
    exact this
  have h := getPaddedDynKernelSize_padded (sparseGroup SpanType.POSTSYNAPTIC 5 33 7) 32
    (by decide) hfit
  have hv : (sparseGroup SpanType.POSTSYNAPTIC 5 33 7).getPaddedDynKernelSize 32 = 192 := by
    rw [h.1, hraw]
    exact hc
  refine ⟨by decide, hv, ?_⟩
  rw [← hv]
  exact h.2.2.2.1 SpanType.PRESYNAPTIC

/-! ## Queries and setters -/

/-- C6.  `isPSAtomicAddRequired(blockSize)` is true exactly when the group is
sparse and either the span is POSTSYNAPTIC and the target neuron count
exceeds the block size, or the span is PRESYNAPTIC and the source neuron
count exceeds the block size.  In particular a sparse POSTSYNAPTIC group with
`blockSize + 1` target neurons gives true, with `blockSize` target neurons
gives false, and a group that is not sparse gives false. -/
theorem isPSAtomicAddRequired_iff (sg : SynapseGroup) (blockSize : Nat) :
    (sg.isPSAtomicAddRequired blockSize = true ↔
      sg.isSparse = true ∧
        ((sg.spanType = SpanType.POSTSYNAPTIC ∧ sg.trgNeuronGroup.numNeurons > blockSize) ∨
         (sg.spanType = SpanType.PRESYNAPTIC ∧ sg.srcNeuronGroup.numNeurons > blockSize))) ∧
    (sg.isSparse = true → sg.spanType = SpanType.POSTSYNAPTIC →
      sg.trgNeuronGroup.numNeurons = blockSize + 1 →
      sg.isPSAtomicAddRequired blockSize = true) ∧
    (sg.isSparse = true → sg.spanType = SpanType.POSTSYNAPTIC →
      sg.trgNeuronGroup.numNeurons = blockSize →
      sg.isPSAtomicAddRequired blockSize = false) ∧
    (sg.isSparse = false → sg.isPSAtomicAddRequired blockSize = false) := by
  unfold SynapseGroup.isPSAtomicAddRequired SynapseGroup.getSpanType
  refine ⟨?_, ?_, ?_, ?_⟩
  · cases hsp : sg.isSparse <;> cases hspan : sg.spanType <;> simp
  · intro h1 h2 h3; simp [h1, h2, h3]
  · intro h1 h2 h3; simp [h1, h2, h3]
  · intro h1; simp [h1]

/-- C7.  For a variable declared by the weight-update model,
`setWUVarZeroCopyEnabled(v, true)` succeeds and `isWUVarZeroCopyEnabled(v)` is
then true, and `setWUVarZeroCopyEnabled(v, false)` succeeds and
`isWUVarZeroCopyEnabled(v)` is then false, whatever the set held before; the
same holds for `setPSVarZeroCopyEnabled` and `isPSVarZeroCopyEnabled` with a
variable declared by the postsynaptic model. -/
theorem setVarZeroCopyEnabled_then_isVarZeroCopyEnabled (sg : SynapseGroup) :
    (∀ v ∈ sg.wuVarNames,
      ((sg.setWUVarZeroCopyEnabled v true).1 = Except.ok () ∧
        (sg.setWUVarZeroCopyEnabled v true).2.isWUVarZeroCopyEnabled v = true) ∧
      ((sg.setWUVarZeroCopyEnabled v false).1 = Except.ok () ∧
        (sg.setWUVarZeroCopyEnabled v false).2.isWUVarZeroCopyEnabled v = false)) ∧
    (∀ w ∈ sg.psVarNames,
      ((sg.setPSVarZeroCopyEnabled w true).1 = Except.ok () ∧
        (sg.setPSVarZeroCopyEnabled w true).2.isPSVarZeroCopyEnabled w = true) ∧
      ((sg.setPSVarZeroCopyEnabled w false).1 = Except.ok () ∧
        (sg.setPSVarZeroCopyEnabled w false).2.isPSVarZeroCopyEnabled w = false)) := by
  constructor
  · intro v hv
    simp [SynapseGroup.setWUVarZeroCopyEnabled, SynapseGroup.isWUVarZeroCopyEnabled, hv]
  · intro w hw
    simp [SynapseGroup.setPSVarZeroCopyEnabled, SynapseGroup.isPSVarZeroCopyEnabled, hw]

theorem setVarZeroCopyEnabled_then_isVarZeroCopyEnabled_witness :
    "g" ∈ (denseGroup 33).wuVarNames ∧ "inSyn" ∈ (denseGroup 33).psVarNames ∧
    ((denseGroup 33).setWUVarZeroCopyEnabled "g" true).2.isWUVarZeroCopyEnabled "g" = true ∧
    ((denseGroup 33).setWUVarZeroCopyEnabled "g" false).2.isWUVarZeroCopyEnabled "g" = false ∧
    ((denseGroup 33).setPSVarZeroCopyEnabled "inSyn" true).2.isPSVarZeroCopyEnabled "inSyn"
      = true ∧
    ((denseGroup 33).setPSVarZeroCopyEnabled "inSyn" false).2.isPSVarZeroCopyEnabled "inSyn"
      = false := by
  have hv : "g" ∈ (denseGroup 33).wuVarNames := by
    simp [SynapseGroup.wuVarNames, denseGroup, exampleGroup]
  have hw : "inSyn" ∈ (denseGroup 33).psVarNames := by
    simp [SynapseGroup.psVarNames, denseGroup, exampleGroup]
  have h := setVarZeroCopyEnabled_then_isVarZeroCopyEnabled (denseGroup 33)
  exact ⟨hv, hw, (h.1 "g" hv).1.2, (h.1 "g" hv).2.2, (h.2 "inSyn" hw).1.2,
    (h.2 "inSyn" hw).2.2⟩

/-- C8.  `setWUVarZeroCopyEnabled(v, enabled)` fails with `UnknownVariable`
exactly when `v` is not among the variables declared by the weight-update
model, it succeeds otherwise, and a failing call leaves the group, in
particular both zero-copy sets, as it was; the same holds for
`setPSVarZeroCopyEnabled` with the variables declared by the postsynaptic
model. -/
theorem setVarZeroCopyEnabled_unknown (sg : SynapseGroup) (v : String) (enabled : Bool) :
    (((sg.setWUVarZeroCopyEnabled v enabled).1
        = Except.error (GennError.UnknownVariable ("Cannot find variable " ++ v))
      ↔ v ∉ sg.wuVarNames) ∧
     ((sg.setWUVarZeroCopyEnabled v enabled).1 = Except.ok () ↔ v ∈ sg.wuVarNames) ∧
     ((sg.setWUVarZeroCopyEnabled v enabled).1 ≠ Except.ok () →
        (sg.setWUVarZeroCopyEnabled v enabled).2 = sg ∧
        (sg.setWUVarZeroCopyEnabled v enabled).2.wuVarZeroCopyEnabled = sg.wuVarZeroCopyEnabled ∧
        (sg.setWUVarZeroCopyEnabled v enabled).2.psVarZeroCopyEnabled
          = sg.psVarZeroCopyEnabled)) ∧
    (((sg.setPSVarZeroCopyEnabled v enabled).1
        = Except.error (GennError.UnknownVariable ("Cannot find variable " ++ v))
      ↔ v ∉ sg.psVarNames) ∧
     ((sg.setPSVarZeroCopyEnabled v enabled).1 = Except.ok () ↔ v ∈ sg.psVarNames) ∧
     ((sg.setPSVarZeroCopyEnabled v enabled).1 ≠ Except.ok () →
        (sg.setPSVarZeroCopyEnabled v enabled).2 = sg ∧
        (sg.setPSVarZeroCopyEnabled v enabled).2.wuVarZeroCopyEnabled = sg.wuVarZeroCopyEnabled ∧
        (sg.setPSVarZeroCopyEnabled v enabled).2.psVarZeroCopyEnabled
          = sg.psVarZeroCopyEnabled)) := by
  unfold SynapseGroup.setWUVarZeroCopyEnabled SynapseGroup.setPSVarZeroCopyEnabled
  constructor
  · by_cases hv : v ∈ sg.wuVarNames <;> cases enabled <;> simp [hv]
  · by_cases hv : v ∈ sg.psVarNames <;> cases enabled <;> simp [hv]

/-- C9.  `isZeroCopyEnabled()` is true exactly when the weight-update
zero-copy set or the postsynaptic zero-copy set is non-empty, that is, when
some variable `v` has `isWUVarZeroCopyEnabled(v)` or
`isPSVarZeroCopyEnabled(v)`. -/
theorem isZeroCopyEnabled_iff (sg : SynapseGroup) :
    (sg.isZeroCopyEnabled = true ↔
      sg.wuVarZeroCopyEnabled.Nonempty ∨ sg.psVarZeroCopyEnabled.Nonempty) ∧
    (sg.isZeroCopyEnabled = true ↔
      ∃ v : String, sg.isWUVarZeroCopyEnabled v = true ∨ sg.isPSVarZeroCopyEnabled v = true) := by
  have h1 : sg.isZeroCopyEnabled = true ↔
      sg.wuVarZeroCopyEnabled.Nonempty ∨ sg.psVarZeroCopyEnabled.Nonempty := by
    unfold SynapseGroup.isZeroCopyEnabled
    simp [Finset.nonempty_iff_ne_empty]
  refine ⟨h1, h1.trans ?_⟩
  simp only [SynapseGroup.isWUVarZeroCopyEnabled, SynapseGroup.isPSVarZeroCopyEnabled,
    decide_eq_true_eq, exists_or]
  rfl

/-- C10.  For a sparse group, `setMaxConnections(n)` succeeds and
`getMaxConnections()` then returns `n`. -/
theorem setMaxConnections_then_getMaxConnections (sg : SynapseGroup) (n : Nat)
    (hsparse : sg.isSparse = true) :
    (sg.setMaxConnections n).1 = Except.ok () ∧
    (sg.setMaxConnections n).2.getMaxConnections = n := by
  simp [SynapseGroup.setMaxConnections, SynapseGroup.getMaxConnections, hsparse]

theorem setMaxConnections_then_getMaxConnections_witness :
    (sparseGroup SpanType.POSTSYNAPTIC 0 33 7).isSparse = true ∧
    ((sparseGroup SpanType.POSTSYNAPTIC 0 33 7).setMaxConnections 4294967295).1 = Except.ok () ∧
    ((sparseGroup SpanType.POSTSYNAPTIC 0 33 7).setMaxConnections 4294967295).2.getMaxConnections
      = 4294967295 := by
  have hs : (sparseGroup SpanType.POSTSYNAPTIC 0 33 7).isSparse = true := by decide
  exact ⟨hs, setMaxConnections_then_getMaxConnections _ 4294967295 hs⟩

/-! ## Collecting extra global parameters -/

theorem append_right_cancel_string (a b s : String) (h : a ++ s = b ++ s) : a = b := by
  apply String.ext
  have hd : (a ++ s).data = (b ++ s).data := by rw [h]
  simpa using hd

theorem lookup_append_of_some (kp extra : KernelParameters) (k v : String)
    (h : kp.lookup k = some v) : (kp ++ extra).lookup k = some v := by
  rw [List.lookup_append, h]
  rfl

theorem lookup_append_single_self (kp : KernelParameters) (k v : String)
    (h : kp.lookup k = none) : (kp ++ [(k, v)]).lookup k = some v := by
  rw [List.lookup_append, h]
  simp

theorem lookup_append_single_ne (kp : KernelParameters) (k k' v : String)
    (hne : k ≠ k') : (kp ++ [(k', v)]).lookup k = kp.lookup k := by
  rw [List.lookup_append]
  have hb : (k == k') = false := by simpa using hne
  have : List.lookup k [(k', v)] = none := by
    simp [List.lookup_cons, hb]
  rw [this]
  cases kp.lookup k <;> rfl

theorem collectParams_cons (used : String → Bool) (groupName : String)
    (p : String × String) (rest : StringPairVec) (kp : KernelParameters) :
    collectParams used groupName (p :: rest) kp
      = collectParams used groupName rest
          (if kp.lookup (p.1 ++ groupName) = none then
            if used p.1 then kp ++ [(p.1 ++ groupName, p.2)] else kp
          else kp) := rfl

/-- Entries present before a collector runs are found unchanged after it. -/
theorem collectParams_lookup_mono (used : String → Bool) (groupName : String) :
    ∀ (ps : StringPairVec) (kp : KernelParameters) (k v : String),
      kp.lookup k = some v → (collectParams used groupName ps kp).lookup k = some v
  | [], _, _, _, h => h
  | p :: rest, kp, k, v, h => by
    rw [collectParams_cons]
    apply collectParams_lookup_mono used groupName rest
    split
    · split
      · exact lookup_append_of_some kp _ k v h
      · exact h
    · exact h

/-- A candidate accepted by the test has its full name among the keys after
the collector has run. -/
theorem collectParams_exposes (used : String → Bool) (groupName : String) :
    ∀ (ps : StringPairVec) (kp : KernelParameters) (name ty : String),
      (name, ty) ∈ ps → used name = true →
      ∃ t, (collectParams used groupName ps kp).lookup (name ++ groupName) = some t
  | [], _, _, _, h, _ => by simp at h
  | p :: rest, kp, name, ty, h, hu => by
    rw [collectParams_cons]
    rcases List.mem_cons.mp h with heq | hmem
    · subst heq
      simp only [hu, if_true]
      cases hl : kp.lookup (name ++ groupName) with
      | none =>
        simp only [if_true]
        exact ⟨ty, collectParams_lookup_mono used groupName rest _ _ ty
          (lookup_append_single_self kp _ ty hl)⟩
      | some t =>
        simp only [reduceCtorEq, if_false]
        exact ⟨t, collectParams_lookup_mono used groupName rest _ _ t hl⟩
    · exact collectParams_exposes used groupName rest _ name ty hmem hu

/-- The first declaration of an accepted candidate whose full name is not yet
a key decides the type stored under that name. -/
theorem collectParams_first (used : String → Bool) (groupName : String) :
    ∀ (ps : StringPairVec) (kp : KernelParameters) (name ty : String),
      ps.lookup name = some ty → kp.lookup (name ++ groupName) = none → used name = true →
      (collectParams used groupName ps kp).lookup (name ++ groupName) = some ty
  | [], _, _, _, h, _, _ => by simp at h
  | (q, tq) :: rest, kp, name, ty, h, hk, hu => by
    rw [collectParams_cons]
    by_cases hq : name = q
    · subst hq
      have hty : tq = ty := by simpa [List.lookup_cons] using h
      subst hty
      simp only [hk, hu, if_true]
      exact collectParams_lookup_mono used groupName rest _ _ tq
        (lookup_append_single_self kp _ tq hk)
    · have hb : (name == q) = false := by simpa using hq
      have hrest : rest.lookup name = some ty := by
        simpa [List.lookup_cons, hb] using h
      have hne : name ++ groupName ≠ q ++ groupName :=
        fun he => hq (append_right_cancel_string name q groupName he)
      apply collectParams_first used groupName rest _ name ty hrest _ hu
      split
      · split
        · rw [lookup_append_single_ne kp _ _ tq hne]
          exact hk
        · exact hk
      · exact hk

theorem keys_nodup_append_single (kp : KernelParameters) (k v : String)
    (hnd : (kp.map Prod.fst).Nodup) (h : kp.lookup k = none) :
    ((kp ++ [(k, v)]).map Prod.fst).Nodup := by
  rw [List.map_append, List.nodup_append]
  refine ⟨hnd, by simp, ?_⟩
  intro x hx hx'
  simp only [List.map_cons, List.map_nil, List.mem_singleton] at hx'
  subst hx'
  rw [List.lookup_eq_none_iff] at h
  obtain ⟨e, he, hek⟩ := List.mem_map.mp hx
  have := h e he
  simp [hek] at this

/-- A collector never gives a key a second entry. -/
theorem collectParams_keys_nodup (used : String → Bool) (groupName : String) :
    ∀ (ps : StringPairVec) (kp : KernelParameters),
      (kp.map Prod.fst).Nodup → ((collectParams used groupName ps kp).map Prod.fst).Nodup
  | [], _, h => h
  | p :: rest, kp, h => by
    rw [collectParams_cons]
    apply collectParams_keys_nodup used groupName rest
    split
    · rename_i hl
      split
      · exact keys_nodup_append_single kp _ _ h hl
      · exact h
    · exact h

/-- A collector leaves the map alone when the full name of its only
candidate is already a key. -/
theorem collectParams_skip (used : String → Bool) (groupName name ty : String)
    (kp : KernelParameters) (h : kp.lookup (name ++ groupName) ≠ none) :
    collectParams used groupName [(name, ty)] kp = kp := by
  simp [collectParams, h]

theorem addExtraGlobalSimParams_eq (sg : SynapseGroup) (groupName suffix : String)
    (ps : StringPairVec) (kp : KernelParameters) :
    sg.addExtraGlobalSimParams groupName suffix ps kp
      = collectParams (fun name =>
          codeFind sg.wuModel.simCode ("$(" ++ name ++ suffix ++ ")")
            || codeFind sg.wuModel.eventCode ("$(" ++ name ++ suffix ++ ")")
            || codeFind sg.wuModel.eventThresholdConditionCode ("$(" ++ name ++ suffix ++ ")"))
          groupName ps kp := rfl

theorem addExtraGlobalPostLearnParams_eq (sg : SynapseGroup) (groupName suffix : String)
    (ps : StringPairVec) (kp : KernelParameters) :
    sg.addExtraGlobalPostLearnParams groupName suffix ps kp
      = collectParams (fun name => codeFind sg.wuModel.learnPostCode ("$(" ++ name ++ suffix))
          groupName ps kp := rfl

theorem addExtraGlobalSynapseDynamicsParams_eq (sg : SynapseGroup) (groupName suffix : String)
    (ps : StringPairVec) (kp : KernelParameters) :
    sg.addExtraGlobalSynapseDynamicsParams groupName suffix ps kp
      = collectParams (fun name => codeFind sg.wuModel.synapseDynamicsCode ("$(" ++ name ++ suffix))
          groupName ps kp := rfl

theorem codeFind_of_append (code a b : String) (h : codeFind code (a ++ b) = true) :
    codeFind code a = true := by
  unfold codeFind at h ⊢
  rw [decide_eq_true_eq] at h ⊢
  have hp : a.data <+: (a ++ b).data := by
    rw [String.data_append]
    exact List.prefix_append _ _
  exact hp.isInfix.trans h

theorem addExtraGlobalParams_lookup_mono (sg : SynapseGroup) (groupName : String)
    (kp : KernelParameters) (k v : String) (h : kp.lookup k = some v) :
    (sg.addExtraGlobalParams groupName kp).lookup k = some v := by
  unfold SynapseGroup.addExtraGlobalParams
  simp only [addExtraGlobalSimParams_eq, addExtraGlobalPostLearnParams_eq,
    addExtraGlobalSynapseDynamicsParams_eq]
  repeat apply collectParams_lookup_mono
  exact h

theorem addExtraGlobalParams_keys_nodup (sg : SynapseGroup) (groupName : String)
    (kp : KernelParameters) (h : (kp.map Prod.fst).Nodup) :
    ((sg.addExtraGlobalParams groupName kp).map Prod.fst).Nodup := by
  unfold SynapseGroup.addExtraGlobalParams
  simp only [addExtraGlobalSimParams_eq, addExtraGlobalPostLearnParams_eq,
    addExtraGlobalSynapseDynamicsParams_eq]
  repeat apply collectParams_keys_nodup
  exact h

/-- The map after the `_pre` pass of the sim region stores the source model's
type under the full name built from the source neuron group's name, and the
whole of `addExtraGlobalParams` keeps it. -/
theorem addExtraGlobalParams_pre_entry (sg : SynapseGroup) (groupName g tSrc : String)
    (hsrc : sg.srcNeuronGroup.neuronModel.extraGlobalParams.lookup g = some tSrc)
    (hsim : codeFind sg.wuModel.simCode ("$(" ++ g ++ "_pre" ++ ")") = true) :
    (sg.addExtraGlobalParams groupName []).lookup (g ++ sg.srcNeuronGroup.name) = some tSrc := by
  have h1 := collectParams_first (fun name =>
      codeFind sg.wuModel.simCode ("$(" ++ name ++ "_pre" ++ ")")
        || codeFind sg.wuModel.eventCode ("$(" ++ name ++ "_pre" ++ ")")
        || codeFind sg.wuModel.eventThresholdConditionCode ("$(" ++ name ++ "_pre" ++ ")"))
    sg.srcNeuronGroup.name sg.srcNeuronGroup.neuronModel.extraGlobalParams [] g tSrc hsrc rfl
    (by simp [hsim])
  unfold SynapseGroup.addExtraGlobalParams
  simp only [addExtraGlobalSimParams_eq, addExtraGlobalPostLearnParams_eq,
    addExtraGlobalSynapseDynamicsParams_eq]
  iterate 8 apply collectParams_lookup_mono
  exact h1

theorem mem_of_lookup (kp : KernelParameters) (k v : String) (h : kp.lookup k = some v) :
    (k, v) ∈ kp := by
  obtain ⟨l₁, l₂, rfl, _⟩ := List.lookup_eq_some_iff.mp h
  simp

theorem count_key_eq_one (kp : KernelParameters) (k v : String)
    (hnd : (kp.map Prod.fst).Nodup) (h : kp.lookup k = some v) :
    (kp.map Prod.fst).count k = 1 :=
  List.count_eq_one_of_mem hnd (List.mem_map.mpr ⟨(k, v), mem_of_lookup kp k v h, rfl⟩)

theorem entry_unique (kp : KernelParameters) (k v t : String)
    (hnd : (kp.map Prod.fst).Nodup) (h : kp.lookup k = some v) (ht : (k, t) ∈ kp) : t = v := by
  have := List.inj_on_of_nodup_map hnd ht (mem_of_lookup kp k v h) rfl
  exact (Prod.mk.inj this).2

/-! ## Sparse-only setters and derived parameters -/

/-- C11.  `setMaxConnections(n)` and `setSpanType(type)` fail with
`InvalidConfiguration` exactly when the group's connectivity does not have
the SPARSE bit set, they succeed otherwise, and a failing call leaves the
group, in particular the stored max-connections bound and span type, as it
was. -/
theorem sparse_only_setters_fail_iff (sg : SynapseGroup) (n : Nat) (spanType : SpanType) :
    ((∃ msg, (sg.setMaxConnections n).1 = Except.error (GennError.InvalidConfiguration msg))
      ↔ sg.matrixType &&& SynapseMatrixConnectivity.SPARSE = 0) ∧
    ((sg.setMaxConnections n).1 = Except.ok ()
      ↔ sg.matrixType &&& SynapseMatrixConnectivity.SPARSE ≠ 0) ∧
    ((∃ msg, (sg.setSpanType spanType).1 = Except.error (GennError.InvalidConfiguration msg))
      ↔ sg.matrixType &&& SynapseMatrixConnectivity.SPARSE = 0) ∧
    ((sg.setSpanType spanType).1 = Except.ok ()
      ↔ sg.matrixType &&& SynapseMatrixConnectivity.SPARSE ≠ 0) ∧
    ((sg.setMaxConnections n).1 ≠ Except.ok () →
      (sg.setMaxConnections n).2 = sg ∧
      (sg.setMaxConnections n).2.maxConnections = sg.maxConnections ∧
      (sg.setMaxConnections n).2.spanType = sg.spanType) ∧
    ((sg.setSpanType spanType).1 ≠ Except.ok () →
      (sg.setSpanType spanType).2 = sg ∧
      (sg.setSpanType spanType).2.maxConnections = sg.maxConnections ∧
      (sg.setSpanType spanType).2.spanType = sg.spanType) := by
  unfold SynapseGroup.setMaxConnections SynapseGroup.setSpanType SynapseGroup.isSparse
  by_cases h : sg.matrixType &&& SynapseMatrixConnectivity.SPARSE = 0 <;> simp [h]

theorem foldl_push_back {α : Type} (f : α → Scalar) :
    ∀ (ds : List α) (init : List Scalar),
      ds.foldl (fun v d => v ++ [f d]) init = init ++ ds.map f
  | [], init => by simp
  | d :: rest, init => by
    simp only [List.foldl_cons, List.map_cons]
    rw [foldl_push_back f rest]
    simp

theorem initDerivedParams_wu (sg : SynapseGroup) (dt : Scalar) :
    (sg.initDerivedParams dt).wuDerivedParams
      = sg.wuDerivedParams ++ sg.wuModel.derivedParams.map (fun d => d.2 sg.wuParams dt) := by
  unfold SynapseGroup.initDerivedParams
  exact foldl_push_back
    (fun d : String × (List Scalar → Scalar → Scalar) => d.2 sg.wuParams dt) _ _

theorem initDerivedParams_ps (sg : SynapseGroup) (dt : Scalar) :
    (sg.initDerivedParams dt).psDerivedParams
      = sg.psDerivedParams ++ sg.psModel.derivedParams.map (fun d => d.2 sg.psParams dt) := by
  unfold SynapseGroup.initDerivedParams
  exact foldl_push_back
    (fun d : String × (List Scalar → Scalar → Scalar) => d.2 sg.psParams dt) _ _

/-- C12.  For a group whose derived-parameter vectors are empty, after
`initDerivedParams(dt)` the weight-update derived vector has the length of
the weight-update model's formula list and its i-th entry is the i-th formula
applied to the weight-update parameter vector and `dt`; likewise the
postsynaptic derived vector is the postsynaptic formula list applied, in
declaration order, to the postsynaptic parameter vector and `dt`. -/
theorem initDerivedParams_fresh (sg : SynapseGroup) (dt : Scalar)
    (hwu : sg.wuDerivedParams = []) (hps : sg.psDerivedParams = []) :
    ((sg.initDerivedParams dt).wuDerivedParams
        = sg.wuModel.derivedParams.map (fun d => d.2 sg.wuParams dt) ∧
      (sg.initDerivedParams dt).wuDerivedParams.length = sg.wuModel.derivedParams.length ∧
      (∀ i : Nat, (sg.initDerivedParams dt).wuDerivedParams[i]?
        = (sg.wuModel.derivedParams[i]?).map (fun d => d.2 sg.wuParams dt))) ∧
    ((sg.initDerivedParams dt).psDerivedParams
        = sg.psModel.derivedParams.map (fun d => d.2 sg.psParams dt) ∧
      (sg.initDerivedParams dt).psDerivedParams.length = sg.psModel.derivedParams.length ∧
      (∀ i : Nat, (sg.initDerivedParams dt).psDerivedParams[i]?
        = (sg.psModel.derivedParams[i]?).map (fun d => d.2 sg.psParams dt))) := by
  have h1 : (sg.initDerivedParams dt).wuDerivedParams
      = sg.wuModel.derivedParams.map (fun d => d.2 sg.wuParams dt) := by
    rw [initDerivedParams_wu, hwu, List.nil_append]
  have h2 : (sg.initDerivedParams dt).psDerivedParams
      = sg.psModel.derivedParams.map (fun d => d.2 sg.psParams dt) := by
    rw [initDerivedParams_ps, hps, List.nil_append]
  refine ⟨⟨h1, ?_, ?_⟩, ⟨h2, ?_, ?_⟩⟩
  · rw [h1, List.length_map]
  · intro i; rw [h1, List.getElem?_map]
  · rw [h2, List.length_map]
  · intro i; rw [h2, List.getElem?_map]

theorem initDerivedParams_fresh_witness :
    derivedGroup.wuDerivedParams = [] ∧ derivedGroup.psDerivedParams = [] ∧
    (derivedGroup.initDerivedParams 1).wuDerivedParams = [1 / 20, 20] ∧
    (derivedGroup.initDerivedParams 1).psDerivedParams = [6] := by
  have hwu : derivedGroup.wuDerivedParams = [] := rfl
  have hps : derivedGroup.psDerivedParams = [] := rfl
  have h := initDerivedParams_fresh derivedGroup 1 hwu hps
  refine ⟨hwu, hps, ?_, ?_⟩
  · rw [h.1.1]
    simp [derivedGroup]
  · rw [h.2.1]
    simp [derivedGroup]
    norm_num

/-- C13, counterexample.  On the fresh group `derivedGroup`,
`initDerivedParams(1)` followed by `initDerivedParams(2)` leaves four
weight-update values, the first two computed with `dt = 1`, while
`initDerivedParams(2)` alone leaves two. -/
theorem initDerivedParams_twice_appends :
    ((derivedGroup.initDerivedParams 1).initDerivedParams 2).wuDerivedParams
      = [1 / 20, 20, 1 / 10, 40] ∧
    (derivedGroup.initDerivedParams 2).wuDerivedParams = [1 / 10, 40] ∧
    ((derivedGroup.initDerivedParams 1).initDerivedParams 2).wuDerivedParams.length
      ≠ derivedGroup.wuModel.derivedParams.length ∧
    ((derivedGroup.initDerivedParams 1).initDerivedParams 2).wuDerivedParams
      ≠ (derivedGroup.initDerivedParams 2).wuDerivedParams := by
  have h12 : ((derivedGroup.initDerivedParams 1).initDerivedParams 2).wuDerivedParams
      = [1 / 20, 20, 1 / 10, 40] := by
    rw [initDerivedParams_wu, initDerivedParams_wu]
    simp [derivedGroup, SynapseGroup.initDerivedParams, exampleGroup]
    norm_num
  have h2 : (derivedGroup.initDerivedParams 2).wuDerivedParams = [1 / 10, 40] := by
    rw [initDerivedParams_wu]
    simp [derivedGroup, exampleGroup]
    norm_num
  refine ⟨h12, h2, ?_, ?_⟩
  · rw [h12]
    simp [derivedGroup]
  · rw [h12, h2]
    intro h
    have := congrArg List.length h
    simp at this

/-- C13, amended.  Re-invoking `initDerivedParams` appends: for a group whose
derived-parameter vectors are empty, after `initDerivedParams(dt1)` followed
by `initDerivedParams(dt2)` each derived vector holds the values of its
model's formulas at `dt1` followed by their values at `dt2`, so its length is
twice the length of the formula list. -/
theorem initDerivedParams_twice (sg : SynapseGroup) (dt1 dt2 : Scalar)
    (hwu : sg.wuDerivedParams = []) (hps : sg.psDerivedParams = []) :
    ((sg.initDerivedParams dt1).initDerivedParams dt2).wuDerivedParams
      = sg.wuModel.derivedParams.map (fun d => d.2 sg.wuParams dt1)
        ++ sg.wuModel.derivedParams.map (fun d => d.2 sg.wuParams dt2) ∧
    ((sg.initDerivedParams dt1).initDerivedParams dt2).psDerivedParams
      = sg.psModel.derivedParams.map (fun d => d.2 sg.psParams dt1)
        ++ sg.psModel.derivedParams.map (fun d => d.2 sg.psParams dt2) ∧
    ((sg.initDerivedParams dt1).initDerivedParams dt2).wuDerivedParams.length
      = 2 * sg.wuModel.derivedParams.length ∧
    ((sg.initDerivedParams dt1).initDerivedParams dt2).psDerivedParams.length
      = 2 * sg.psModel.derivedParams.length := by
  have h1 : ((sg.initDerivedParams dt1).initDerivedParams dt2).wuDerivedParams
      = sg.wuModel.derivedParams.map (fun d => d.2 sg.wuParams dt1)
        ++ sg.wuModel.derivedParams.map (fun d => d.2 sg.wuParams dt2) := by
    rw [initDerivedParams_wu, initDerivedParams_wu, hwu, List.nil_append]
    rfl
  have h2 : ((sg.initDerivedParams dt1).initDerivedParams dt2).psDerivedParams
      = sg.psModel.derivedParams.map (fun d => d.2 sg.psParams dt1)
        ++ sg.psModel.derivedParams.map (fun d => d.2 sg.psParams dt2) := by
    rw [initDerivedParams_ps, initDerivedParams_ps, hps, List.nil_append]
    rfl
  refine ⟨h1, h2, ?_, ?_⟩
  · rw [h1, List.length_append, List.length_map, List.length_map]
    omega
  · rw [h2, List.length_append, List.length_map, List.length_map]
    omega

theorem initDerivedParams_twice_witness :
    derivedGroup.wuDerivedParams = [] ∧ derivedGroup.psDerivedParams = [] ∧
    ((derivedGroup.initDerivedParams 3).initDerivedParams 4).psDerivedParams = [8, 9] ∧
    ((derivedGroup.initDerivedParams 3).initDerivedParams 4).wuDerivedParams.length = 4 := by
  have hwu : derivedGroup.wuDerivedParams = [] := rfl
  have hps : derivedGroup.psDerivedParams = [] := rfl
  have h := initDerivedParams_twice derivedGroup 3 4 hwu hps
  refine ⟨hwu, hps, ?_, ?_⟩
  · rw [h.2.1]
    simp [derivedGroup]
    norm_num
  · rw [h.2.2.1]
    simp [derivedGroup]

/-! ## Offsets and frame of the zero-copy setters -/

theorem offset_ne_empty (n : String) : "(delaySlot * " ++ n ++ ") + " ≠ "" := by
  intro h
  have hd := congrArg String.data h
  simp at hd

/-- C18.  `getOffsetPre()` returns the empty string exactly when the source
neuron group does not require a delay queue; when it does, the result is the
non-empty text `(delaySlot * N) + ` with `N` the decimal rendering of the
source neuron count. -/
theorem getOffsetPre_spec (sg : SynapseGroup) :
    (sg.getOffsetPre = "" ↔ sg.srcNeuronGroup.delayRequired = false) ∧
    (sg.srcNeuronGroup.delayRequired = true →
      sg.getOffsetPre = "(delaySlot * " ++ Nat.repr sg.srcNeuronGroup.numNeurons ++ ") + " ∧
      sg.getOffsetPre ≠ "") ∧
    delayedGroup.getOffsetPre = "(delaySlot * 100) + " := by
  unfold SynapseGroup.getOffsetPre
  refine ⟨?_, ?_, by decide⟩
  · cases h : sg.srcNeuronGroup.delayRequired
    · simp
    · simp only [if_true, Bool.true_eq_false, iff_false]
      exact offset_ne_empty _
  · intro h
    simp only [h, if_true]
    exact ⟨rfl, offset_ne_empty _⟩

/-- C20.  The zero-copy setters touch only their own entry:
`setWUVarZeroCopyEnabled(v, enabled)` leaves `isWUVarZeroCopyEnabled(w)` as it
was for every `w` other than `v` and leaves the postsynaptic zero-copy set,
the max-connections bound, the span type, the derived-parameter vectors and
the padded cumulative-sum pair as they were; `setPSVarZeroCopyEnabled` does
the same with the roles of the two sets exchanged. -/
theorem setVarZeroCopyEnabled_frame (sg : SynapseGroup) (v : String) (enabled : Bool) :
    ((∀ w : String, w ≠ v →
        (sg.setWUVarZeroCopyEnabled v enabled).2.isWUVarZeroCopyEnabled w
          = sg.isWUVarZeroCopyEnabled w) ∧
      (sg.setWUVarZeroCopyEnabled v enabled).2.psVarZeroCopyEnabled = sg.psVarZeroCopyEnabled ∧
      (sg.setWUVarZeroCopyEnabled v enabled).2.maxConnections = sg.maxConnections ∧
      (sg.setWUVarZeroCopyEnabled v enabled).2.spanType = sg.spanType ∧
      (sg.setWUVarZeroCopyEnabled v enabled).2.wuDerivedParams = sg.wuDerivedParams ∧
      (sg.setWUVarZeroCopyEnabled v enabled).2.psDerivedParams = sg.psDerivedParams ∧
      (sg.setWUVarZeroCopyEnabled v enabled).2.paddedKernelCumSum = sg.paddedKernelCumSum) ∧
    ((∀ w : String, w ≠ v →
        (sg.setPSVarZeroCopyEnabled v enabled).2.isPSVarZeroCopyEnabled w
          = sg.isPSVarZeroCopyEnabled w) ∧
      (sg.setPSVarZeroCopyEnabled v enabled).2.wuVarZeroCopyEnabled = sg.wuVarZeroCopyEnabled ∧
      (sg.setPSVarZeroCopyEnabled v enabled).2.maxConnections = sg.maxConnections ∧
      (sg.setPSVarZeroCopyEnabled v enabled).2.spanType = sg.spanType ∧
      (sg.setPSVarZeroCopyEnabled v enabled).2.wuDerivedParams = sg.wuDerivedParams ∧
      (sg.setPSVarZeroCopyEnabled v enabled).2.psDerivedParams = sg.psDerivedParams ∧
      (sg.setPSVarZeroCopyEnabled v enabled).2.paddedKernelCumSum = sg.paddedKernelCumSum) := by
  unfold SynapseGroup.setWUVarZeroCopyEnabled SynapseGroup.setPSVarZeroCopyEnabled
    SynapseGroup.isWUVarZeroCopyEnabled SynapseGroup.isPSVarZeroCopyEnabled
  constructor
  · by_cases hv : v ∈ sg.wuVarNames <;> cases enabled <;>
      simp +contextual [hv, Finset.mem_insert, Finset.mem_erase]
  · by_cases hv : v ∈ sg.psVarNames <;> cases enabled <;>
      simp +contextual [hv, Finset.mem_insert, Finset.mem_erase]

/-! ## Extra global parameters of a group -/

/-- C14, counterexample.  For the group `preScopeGroup`, whose source neuron
group is named `Pre`, `addExtraGlobalParams("Syn", {})` yields the single
entry `gPre`; the key `gSyn` is absent. -/
theorem addExtraGlobalParams_key_not_groupName :
    preScopeGroup.srcNeuronGroup.neuronModel.extraGlobalParams = [("g", "scalar*")] ∧
    preScopeGroup.trgNeuronGroup.neuronModel.extraGlobalParams = [("g", "float*")] ∧
    codeFind preScopeGroup.wuModel.simCode "$(g_pre)" = true ∧
    preScopeGroup.addExtraGlobalParams "Syn" [] = [("gPre", "scalar*")] ∧
    (preScopeGroup.addExtraGlobalParams "Syn" []).lookup ("g" ++ "Syn") = none := by
  decide

/-- C14, amended.  For every group whose source neuron model declares an
extra global parameter `g` and whose weight-update sim code contains
`$(g_pre)`, `addExtraGlobalParams(groupName, {})` yields a mapping that
contains the key `g` followed by the name of the source neuron group exactly
once, with the type declared by the source neuron model, whatever the target
neuron model declares; when the two neuron models declare `g` only and the
weight-update model declares no extra global parameter, the mapping has no
other entry. -/
theorem addExtraGlobalParams_pre_scope (sg : SynapseGroup) (groupName g tSrc : String)
    (hsrc : sg.srcNeuronGroup.neuronModel.extraGlobalParams.lookup g = some tSrc)
    (hsim : codeFind sg.wuModel.simCode ("$(" ++ g ++ "_pre" ++ ")") = true) :
    (sg.addExtraGlobalParams groupName []).lookup (g ++ sg.srcNeuronGroup.name) = some tSrc ∧
    ((sg.addExtraGlobalParams groupName []).map Prod.fst).count (g ++ sg.srcNeuronGroup.name)
      = 1 ∧
    (∀ t : String, (g ++ sg.srcNeuronGroup.name, t) ∈ sg.addExtraGlobalParams groupName [] →
      t = tSrc) ∧
    (∀ tTrg : String,
      sg.srcNeuronGroup.neuronModel.extraGlobalParams = [(g, tSrc)] →
      sg.trgNeuronGroup.neuronModel.extraGlobalParams = [(g, tTrg)] →
      sg.wuModel.extraGlobalParams = [] →
      sg.addExtraGlobalParams groupName [] = [(g ++ sg.srcNeuronGroup.name, tSrc)]) := by
  have hl := addExtraGlobalParams_pre_entry sg groupName g tSrc hsrc hsim
  have hnd := addExtraGlobalParams_keys_nodup sg groupName [] (by simp)
  refine ⟨hl, count_key_eq_one _ _ _ hnd hl, fun t ht => entry_unique _ _ _ t hnd hl ht, ?_⟩
  intro tTrg h1 h2 h3
  simp [SynapseGroup.addExtraGlobalParams, SynapseGroup.addExtraGlobalSimParams,
    SynapseGroup.addExtraGlobalPostLearnParams, SynapseGroup.addExtraGlobalSynapseDynamicsParams,
    h1, h2, h3, hsim]

theorem addExtraGlobalParams_pre_scope_witness :
    mixedScopeGroup.srcNeuronGroup.neuronModel.extraGlobalParams.lookup "g" = some "scalar*" ∧
    codeFind mixedScopeGroup.wuModel.simCode ("$(" ++ "g" ++ "_pre" ++ ")") = true ∧
    (mixedScopeGroup.addExtraGlobalParams "Syn" []).lookup ("g" ++ "Pre") = some "scalar*" ∧
    ((mixedScopeGroup.addExtraGlobalParams "Syn" []).map Prod.fst).count ("g" ++ "Pre") = 1 :=
  have h := addExtraGlobalParams_pre_scope mixedScopeGroup "Syn" "g" "scalar*"
    (by decide) (by decide)
  ⟨by decide, by decide, h.1, h.2.1⟩

/-- C15, the code at the failing input.  The group `prefixGroup` declares `g`
and `gScale`, and its learn-post and synapse-dynamics code contain
`$(gScale)` but not `$(g)`; both collectors nevertheless add `gSyn`, because
they search for `$(g` without the closing parenthesis, while the sim
collector, searching for `$(g)`, adds nothing for the same code. -/
theorem addExtraGlobalPostLearnParams_matches_prefix :
    codeFind prefixGroup.wuModel.learnPostCode "$(g)" = false ∧
    codeFind prefixGroup.wuModel.synapseDynamicsCode "$(g)" = false ∧
    prefixGroup.addExtraGlobalPostLearnParams "Syn" ""
        prefixGroup.wuModel.extraGlobalParams []
      = [("gSyn", "scalar*"), ("gScaleSyn", "scalar")] ∧
    prefixGroup.addExtraGlobalSynapseDynamicsParams "Syn" ""
        prefixGroup.wuModel.extraGlobalParams []
      = [("gSyn", "scalar*"), ("gScaleSyn", "scalar")] ∧
    (egpGroup [] [] [("g", "scalar*"), ("gScale", "scalar")]
        "$(w) += $(gScale);" "" "" "").addExtraGlobalSimParams "Syn" ""
        [("g", "scalar*"), ("gScale", "scalar")] []
      = [("gScaleSyn", "scalar")] := by
  decide

theorem collectParams_keeps_key (used : String → Bool) (groupName : String)
    (ps : StringPairVec) (kp : KernelParameters) (k : String)
    (h : ∃ t, kp.lookup k = some t) :
    ∃ t, (collectParams used groupName ps kp).lookup k = some t := by
  obtain ⟨t, ht⟩ := h
  exact ⟨t, collectParams_lookup_mono used groupName ps kp k t ht⟩

/-- C16.  If the weight-update model declares an extra global parameter `p`
and the token `$(p)` occurs in the weight-update sim code, event code,
threshold-condition code, learn-post code or synapse-dynamics code, then the
mapping after `addExtraGlobalParams(groupName, m)` contains the key `p`
followed by `groupName`. -/
theorem addExtraGlobalParams_exposes_referenced (sg : SynapseGroup)
    (groupName p ty : String) (m : KernelParameters)
    (hdecl : (p, ty) ∈ sg.wuModel.extraGlobalParams)
    (href : codeFind sg.wuModel.simCode ("$(" ++ p ++ ")") = true ∨
      codeFind sg.wuModel.eventCode ("$(" ++ p ++ ")") = true ∨
      codeFind sg.wuModel.eventThresholdConditionCode ("$(" ++ p ++ ")") = true ∨
      codeFind sg.wuModel.learnPostCode ("$(" ++ p ++ ")") = true ∨
      codeFind sg.wuModel.synapseDynamicsCode ("$(" ++ p ++ ")") = true) :
    ∃ t, (sg.addExtraGlobalParams groupName m).lookup (p ++ groupName) = some t := by
  unfold SynapseGroup.addExtraGlobalParams
  simp only [addExtraGlobalSimParams_eq, addExtraGlobalPostLearnParams_eq,
    addExtraGlobalSynapseDynamicsParams_eq]
  by_cases hsim : (codeFind sg.wuModel.simCode ("$(" ++ p ++ ")")
      || codeFind sg.wuModel.eventCode ("$(" ++ p ++ ")")
      || codeFind sg.wuModel.eventThresholdConditionCode ("$(" ++ p ++ ")")) = true
  · iterate 6 apply collectParams_keeps_key
    apply collectParams_exposes _ _ _ _ p ty hdecl
    simpa using hsim
  · by_cases hlearn : codeFind sg.wuModel.learnPostCode ("$(" ++ p ++ ")") = true
    · iterate 3 apply collectParams_keeps_key
      apply collectParams_exposes _ _ _ _ p ty hdecl
      simpa using codeFind_of_append _ _ _ hlearn
    · have hdyn : codeFind sg.wuModel.synapseDynamicsCode ("$(" ++ p ++ ")") = true := by
        simp only [Bool.or_eq_true, not_or] at hsim
        rcases href with h | h | h | h | h
        · exact absurd h hsim.1.1
        · exact absurd h hsim.1.2
        · exact absurd h hsim.2
        · exact absurd h hlearn
        · exact h
      apply collectParams_exposes _ _ _ _ p ty hdecl
      simpa using codeFind_of_append _ _ _ hdyn

theorem addExtraGlobalParams_exposes_referenced_witness :
    ("g", "scalar*") ∈ dynamicsGroup.wuModel.extraGlobalParams ∧
    codeFind dynamicsGroup.wuModel.synapseDynamicsCode ("$(" ++ "g" ++ ")") = true ∧
    ∃ t, (dynamicsGroup.addExtraGlobalParams "Syn" [("other", "int")]).lookup ("g" ++ "Syn")
      = some t :=
  ⟨by decide, by decide,
    addExtraGlobalParams_exposes_referenced dynamicsGroup "Syn" "g" "scalar*" [("other", "int")]
      (by decide) (Or.inr (Or.inr (Or.inr (Or.inr (by decide)))))⟩

/-- C17.  Every key present in `m` is present after
`addExtraGlobalParams(groupName, m)` with the type it had, and each of the
three collectors leaves the mapping as it is when the full name of its
candidate is already a key. -/
theorem addExtraGlobalParams_first_writer_wins (sg : SynapseGroup) (groupName : String)
    (m : KernelParameters) :
    (∀ k v : String, m.lookup k = some v →
      (sg.addExtraGlobalParams groupName m).lookup k = some v) ∧
    (∀ (name suffix p ty : String) (kp : KernelParameters), kp.lookup (p ++ name) ≠ none →
      sg.addExtraGlobalSimParams name suffix [(p, ty)] kp = kp ∧
      sg.addExtraGlobalPostLearnParams name suffix [(p, ty)] kp = kp ∧
      sg.addExtraGlobalSynapseDynamicsParams name suffix [(p, ty)] kp = kp) := by
  refine ⟨fun k v h => addExtraGlobalParams_lookup_mono sg groupName m k v h, ?_⟩
  intro name suffix p ty kp h
  rw [addExtraGlobalSimParams_eq, addExtraGlobalPostLearnParams_eq,
    addExtraGlobalSynapseDynamicsParams_eq]
  exact ⟨collectParams_skip _ _ _ _ _ h, collectParams_skip _ _ _ _ _ h,
    collectParams_skip _ _ _ _ _ h⟩

/-- C19.  For every group whose source and target neuron models both declare
an extra global parameter `g` and whose weight-update sim code contains both
`$(g_pre)` and `$(g_post)`, `addExtraGlobalParams` applied to the empty
mapping stores exactly one entry under the full name of `g`, with the type
declared by the source neuron model; the `_post` pass finds that name
registered and adds nothing, and when the two neuron models declare `g` only
and the weight-update model declares no extra global parameter the mapping is
that one entry. -/
theorem addExtraGlobalParams_first_scope_wins (sg : SynapseGroup)
    (groupName g tSrc tTrg : String)
    (hsrc : sg.srcNeuronGroup.neuronModel.extraGlobalParams.lookup g = some tSrc)
    (htrg : sg.trgNeuronGroup.neuronModel.extraGlobalParams.lookup g = some tTrg)
    (hpre : codeFind sg.wuModel.simCode ("$(" ++ g ++ "_pre" ++ ")") = true)
    (hpost : codeFind sg.wuModel.simCode ("$(" ++ g ++ "_post" ++ ")") = true) :
    (sg.addExtraGlobalParams groupName []).lookup (g ++ sg.srcNeuronGroup.name) = some tSrc ∧
    ((sg.addExtraGlobalParams groupName []).map Prod.fst).count (g ++ sg.srcNeuronGroup.name)
      = 1 ∧
    (∀ t : String, (g ++ sg.srcNeuronGroup.name, t) ∈ sg.addExtraGlobalParams groupName [] →
      t = tSrc) ∧
    sg.addExtraGlobalSimParams sg.srcNeuronGroup.name "_post" [(g, tTrg)]
        (sg.addExtraGlobalSimParams sg.srcNeuronGroup.name "_pre"
          sg.srcNeuronGroup.neuronModel.extraGlobalParams [])
      = sg.addExtraGlobalSimParams sg.srcNeuronGroup.name "_pre"
          sg.srcNeuronGroup.neuronModel.extraGlobalParams [] ∧
    (sg.srcNeuronGroup.neuronModel.extraGlobalParams = [(g, tSrc)] →
      sg.trgNeuronGroup.neuronModel.extraGlobalParams = [(g, tTrg)] →
      sg.wuModel.extraGlobalParams = [] →
      sg.addExtraGlobalParams groupName [] = [(g ++ sg.srcNeuronGroup.name, tSrc)]) := by
  have _ := htrg
  have _ := hpost
  have hl := addExtraGlobalParams_pre_entry sg groupName g tSrc hsrc hpre
  have hnd := addExtraGlobalParams_keys_nodup sg groupName [] (by simp)
  have hfirst : (sg.addExtraGlobalSimParams sg.srcNeuronGroup.name "_pre"
      sg.srcNeuronGroup.neuronModel.extraGlobalParams []).lookup (g ++ sg.srcNeuronGroup.name)
      = some tSrc := by
    rw [addExtraGlobalSimParams_eq]
    exact collectParams_first _ _ _ [] g tSrc hsrc rfl (by simp [hpre])
  refine ⟨hl, count_key_eq_one _ _ _ hnd hl, fun t ht => entry_unique _ _ _ t hnd hl ht, ?_, ?_⟩
  · rw [addExtraGlobalSimParams_eq sg sg.srcNeuronGroup.name "_post"]
    apply collectParams_skip
    rw [hfirst]
    simp
  · intro h1 h2 h3
    simp [SynapseGroup.addExtraGlobalParams, SynapseGroup.addExtraGlobalSimParams,
      SynapseGroup.addExtraGlobalPostLearnParams,
      SynapseGroup.addExtraGlobalSynapseDynamicsParams, h1, h2, h3, hpre]

theorem addExtraGlobalParams_first_scope_wins_witness :
    prePostScopeGroup.srcNeuronGroup.neuronModel.extraGlobalParams.lookup "g" = some "scalar*" ∧
    prePostScopeGroup.trgNeuronGroup.neuronModel.extraGlobalParams.lookup "g" = some "float*" ∧
    codeFind prePostScopeGroup.wuModel.simCode ("$(" ++ "g" ++ "_pre" ++ ")") = true ∧
    codeFind prePostScopeGroup.wuModel.simCode ("$(" ++ "g" ++ "_post" ++ ")") = true ∧
    prePostScopeGroup.addExtraGlobalParams "Syn" [] = [("gPre", "scalar*")] :=
  have h := addExtraGlobalParams_first_scope_wins prePostScopeGroup "Syn" "g" "scalar*" "float*"
    (by decide) (by decide) (by decide) (by decide)
  ⟨by decide, by decide, by decide, by decide, h.2.2.2.2 rfl rfl rfl⟩

end GeNN
